import Mathlib

/-!
# percpu-test: a shallow embedding of `percpu-test.c`

The kernel module is modelled as state-passing functions over a `World`
that holds the two module parameters, counters for the calls made to the
external allocator and clock, and the trace of externally visible
operations (allocator calls, clock reads, log lines).

* C `int` arithmetic is `Int` followed by `wrapInt` (two's complement,
  32 bits); C `long` arithmetic is `Int` followed by `wrapLong` (64 bits).
  Signed overflow wraps, as it does in kernel code, which is built with
  `-fno-strict-overflow`.
* Loops take a fuel argument; running out of fuel is `Fault.out_of_fuel`.
* A run ends by returning a world or in a `Fault`; a fault of the code itself
  carries the world in which it happened.
* The values returned by the block allocators, by `getnstimeofday` and by
  `param_set_ushort` are not part of this module: they are read from `Env`.
* `vmalloc` is assumed to hand back a scratch array of the size asked for.
  Reading a slot that was never written, which in this code is always a
  slot outside that array, is the fault `Fault.bad_access`.
-/

namespace PercpuTest

/-! ## Constants and machine arithmetic -/

def MILLION : Int := 1000000

def BILLION : Int := 1000000000

def NUM_TESTS : Int := 3

/-- Size in bytes of `int *` and of `int` on the 64-bit target. -/
def SIZEOF_PTR : Int := 8

def SIZEOF_INT : Nat := 4

def INT_MAX : Int := 2147483647

def INT_MIN : Int := -2147483648

/-- Result of an operation of C type `int`: reduction to 32-bit two's complement. -/
def wrapInt (x : Int) : Int := (x + 2147483648) % 4294967296 - 2147483648

/-- Result of an operation of C type `long`: reduction to 64-bit two's complement. -/
def wrapLong (x : Int) : Int :=
  (x + 9223372036854775808) % 18446744073709551616 - 9223372036854775808

/-- Conversion to `size_t` (unsigned 64 bits). -/
def toSizeT (x : Int) : Nat := (x % 18446744073709551616).toNat

/-! ## Data model -/

/-- Pointer values; `0` is `NULL`. -/
abbrev Ptr := Nat

structure Timespec where
  tv_sec : Int
  tv_nsec : Int
  deriving DecidableEq, Repr

inductive Backend where
  | percpu
  | kmalloc
  deriving DecidableEq, Repr

inductive Gfp where
  | GFP_KERNEL
  deriving DecidableEq, Repr

/-- The two block-allocation calls, with their arguments. -/
inductive AllocCall where
  | alloc_percpu (size align : Nat)
  | kmalloc (size : Nat) (flags : Gfp)
  deriving DecidableEq, Repr

/-- The two block-release calls. -/
inductive FreeCall where
  | free_percpu
  | kfree
  deriving DecidableEq, Repr

/-- The lines written with `pr_info`, one constructor per format string. -/
inductive Msg where
  /-- The line `<percpu_test> percpu test 1: start` and its five siblings. -/
  | start (b : Backend) (k : Nat)
  /-- The line `<percpu_test> percpu test 1 took: %ld ms` and its five siblings. -/
  | took (b : Backend) (k : Nat) (ms : Int)
  /-- The line `<percpu_test> m_iterations: %d`. -/
  | m_iterations (v : Int)
  /-- The line `<percpu_test> test_num: %d`. -/
  | test_num (v : Int)
  /-- The line `<percpu_test> invalid test!`. -/
  | invalid_test
  /-- The line `<percpu_test> running test: %d`. -/
  | running_test (v : Int)
  deriving DecidableEq, Repr

/-- Externally visible operations, in program order. -/
inductive Event where
  /-- The call `vmalloc(size)`. -/
  | vmalloc (size : Nat)
  /-- The call `vfree(arr)`. -/
  | vfree
  /-- The call `getnstimeofday(&ts)`, which stored `ts`. -/
  | getnstimeofday (ts : Timespec)
  /-- The call `pr_info(...)`. -/
  | pr_info (msg : Msg)
  /-- The statement `arr[idx] = call(...)`, where the call returned `ret`. -/
  | alloc (call : AllocCall) (idx : Int) (ret : Ptr)
  /-- The statement `call(arr[idx])`, where the slot held `p`. -/
  | free (call : FreeCall) (idx : Int) (p : Option Ptr)
  deriving DecidableEq, Repr

/-- What the kernel outside this module returns. -/
structure Env where
  /-- Value returned by the `n`-th block allocation call (`0` is `NULL`). -/
  allocRet : Nat → Ptr
  /-- Value stored by the `n`-th call of `getnstimeofday`. -/
  now : Nat → Timespec
  /-- Given the written characters and the current content of `test_num`,
  `param_set_ushort` gives its return code and the new content of `test_num`. -/
  param_set_ushort : List Char → Int → Int × Int

structure World where
  m_iterations : Int
  test_num : Int
  nalloc : Nat
  nclock : Nat
  trace : List Event
  deriving DecidableEq, Repr

/-- The ways a run ends without returning. -/
inductive Fault where
  /-- The fuel of a loop ran out. -/
  | out_of_fuel
  /-- A call through a `NULL` table entry, made in world `w`. -/
  | null_call (w : World)
  /-- A read of `arr[i]`, a slot never written, made in world `w`. -/
  | bad_access (i : Int) (w : World)
  deriving DecidableEq, Repr

/-- The scratch array `arr` of a test function. -/
abbrev Arr := Int → Option Ptr

def Arr.empty : Arr := fun _ => none

def Arr.set (arr : Arr) (i : Int) (p : Ptr) : Arr :=
  fun j => if j = i then some p else arr j

def World.emit (w : World) (e : Event) : World :=
  { w with trace := w.trace ++ [e] }

/-! ## Primitive steps -/

/-- The loop `for (i = init; cond; i = next i) body`. -/
def forLoop {σ : Type} (cond : Int → σ → Bool) (next : Int → Int)
    (body : Int → σ → Except Fault σ) : Nat → Int → σ → Except Fault σ
  | 0, _, _ => .error .out_of_fuel
  | fuel + 1, i, s =>
    if cond i s then
      match body i s with
      | .ok s1 => forLoop cond next body fuel (next i) s1
      | .error e => .error e
    else .ok s

/-- The call `getnstimeofday(&ts)`. -/
def getnstimeofday (env : Env) (w : World) : Timespec × World :=
  let ts := env.now w.nclock
  (ts, { w with nclock := w.nclock + 1, trace := w.trace ++ [.getnstimeofday ts] })

/-- The statement `arr[i] = call(...)`. -/
def alloc_store (env : Env) (call : AllocCall) (i : Int) (s : Arr × World) :
    Except Fault (Arr × World) :=
  let p := env.allocRet s.2.nalloc
  .ok (s.1.set i p,
    { s.2 with nalloc := s.2.nalloc + 1, trace := s.2.trace ++ [.alloc call i p] })

/-- The statement `call(arr[i])`; the read of a slot never written is a fault. -/
def free_load (call : FreeCall) (i : Int) (s : Arr × World) : Except Fault (Arr × World) :=
  match s.1 i with
  | some p => .ok (s.1, s.2.emit (.free call i (some p)))
  | none => .error (.bad_access i s.2)

/-- The expression of the `took` lines:
`((end.tv_sec * BILLION + end.tv_nsec) - (start.tv_sec * BILLION + start.tv_nsec)) / MILLION`
in `long` arithmetic, `/` truncating towards zero. -/
def elapsed_ms (start fin : Timespec) : Int :=
  wrapLong (Int.tdiv
    (wrapLong (wrapLong (wrapLong (fin.tv_sec * BILLION) + fin.tv_nsec) -
      wrapLong (wrapLong (start.tv_sec * BILLION) + start.tv_nsec)))
    MILLION)

/-- The argument of `vmalloc`: `m_iterations * MILLION * sizeof(int *)`. -/
def vmalloc_size (m_iterations : Int) : Nat :=
  toSizeT (toSizeT (wrapInt (m_iterations * MILLION)) * SIZEOF_PTR)

/-- The loop condition `i < m_iterations * MILLION`. -/
def below_bound (i : Int) (s : Arr × World) : Bool :=
  decide (i < wrapInt (s.2.m_iterations * MILLION))

/-- The loop condition `i >= 0`. -/
def non_negative (i : Int) (_s : Arr × World) : Bool :=
  decide (i ≥ 0)

/-! ## The six test functions -/

/-- percpu test 1 - sequential deallocation. -/
def percpu_test1 (env : Env) (fuel : Nat) (w : World) : Except Fault World := do
  let w := w.emit (.vmalloc (vmalloc_size w.m_iterations))
  let w := w.emit (.pr_info (.start .percpu 1))
  let (start, w) := getnstimeofday env w
  let s ← forLoop below_bound (fun i => wrapInt (i + 1))
    (alloc_store env (.alloc_percpu 16 4)) fuel 0 (Arr.empty, w)
  let s ← forLoop below_bound (fun i => wrapInt (i + 1))
    (free_load .free_percpu) fuel 0 s
  let (fin, w) := getnstimeofday env s.2
  let w := w.emit (.pr_info (.took .percpu 1 (elapsed_ms start fin)))
  pure (w.emit .vfree)

/-- percpu test 2 - deallocate every other element. -/
def percpu_test2 (env : Env) (fuel : Nat) (w : World) : Except Fault World := do
  let w := w.emit (.vmalloc (vmalloc_size w.m_iterations))
  let w := w.emit (.pr_info (.start .percpu 2))
  let (start, w) := getnstimeofday env w
  let s ← forLoop below_bound (fun i => wrapInt (i + 1))
    (alloc_store env (.alloc_percpu 16 4)) fuel 0 (Arr.empty, w)
  let s ← forLoop below_bound (fun i => wrapInt (i + 2))
    (free_load .free_percpu) fuel 0 s
  let s ← forLoop below_bound (fun i => wrapInt (i + 2))
    (free_load .free_percpu) fuel 1 s
  let (fin, w) := getnstimeofday env s.2
  let w := w.emit (.pr_info (.took .percpu 2 (elapsed_ms start fin)))
  pure (w.emit .vfree)

/-- percpu test 3 - deallocate reverse order. -/
def percpu_test3 (env : Env) (fuel : Nat) (w : World) : Except Fault World := do
  let w := w.emit (.vmalloc (vmalloc_size w.m_iterations))
  let w := w.emit (.pr_info (.start .percpu 3))
  let (start, w) := getnstimeofday env w
  let s ← forLoop below_bound (fun i => wrapInt (i + 1))
    (alloc_store env (.alloc_percpu 16 4)) fuel 0 (Arr.empty, w)
  let s ← forLoop non_negative (fun i => wrapInt (i - 1))
    (free_load .free_percpu) fuel (wrapInt (wrapInt (s.2.m_iterations * MILLION) - 1)) s
  let (fin, w) := getnstimeofday env s.2
  let w := w.emit (.pr_info (.took .percpu 3 (elapsed_ms start fin)))
  pure (w.emit .vfree)

/-- kmalloc test 1 - sequential deallocation. -/
def kmalloc_test1 (env : Env) (fuel : Nat) (w : World) : Except Fault World := do
  let w := w.emit (.vmalloc (vmalloc_size w.m_iterations))
  let w := w.emit (.pr_info (.start .kmalloc 1))
  let (start, w) := getnstimeofday env w
  let s ← forLoop below_bound (fun i => wrapInt (i + 1))
    (alloc_store env (.kmalloc SIZEOF_INT .GFP_KERNEL)) fuel 0 (Arr.empty, w)
  let s ← forLoop below_bound (fun i => wrapInt (i + 1))
    (free_load .kfree) fuel 0 s
  let (fin, w) := getnstimeofday env s.2
  let w := w.emit (.pr_info (.took .kmalloc 1 (elapsed_ms start fin)))
  pure (w.emit .vfree)

/-- kmalloc test 2 - deallocate every other element. -/
def kmalloc_test2 (env : Env) (fuel : Nat) (w : World) : Except Fault World := do
  let w := w.emit (.vmalloc (vmalloc_size w.m_iterations))
  let w := w.emit (.pr_info (.start .kmalloc 2))
  let (start, w) := getnstimeofday env w
  let s ← forLoop below_bound (fun i => wrapInt (i + 1))
    (alloc_store env (.kmalloc SIZEOF_INT .GFP_KERNEL)) fuel 0 (Arr.empty, w)
  let s ← forLoop below_bound (fun i => wrapInt (i + 2))
    (free_load .kfree) fuel 0 s
  let s ← forLoop below_bound (fun i => wrapInt (i + 2))
    (free_load .kfree) fuel 1 s
  let (fin, w) := getnstimeofday env s.2
  let w := w.emit (.pr_info (.took .kmalloc 2 (elapsed_ms start fin)))
  pure (w.emit .vfree)

/-- kmalloc test 3 - deallocate reverse order. -/
def kmalloc_test3 (env : Env) (fuel : Nat) (w : World) : Except Fault World := do
  let w := w.emit (.vmalloc (vmalloc_size w.m_iterations))
  let w := w.emit (.pr_info (.start .kmalloc 3))
  let (start, w) := getnstimeofday env w
  let s ← forLoop below_bound (fun i => wrapInt (i + 1))
    (alloc_store env (.kmalloc SIZEOF_INT .GFP_KERNEL)) fuel 0 (Arr.empty, w)
  let s ← forLoop non_negative (fun i => wrapInt (i - 1))
    (free_load .kfree) fuel (wrapInt (wrapInt (s.2.m_iterations * MILLION) - 1)) s
  let (fin, w) := getnstimeofday env s.2
  let w := w.emit (.pr_info (.took .kmalloc 3 (elapsed_ms start fin)))
  pure (w.emit .vfree)

/-! ## Dispatch -/

abbrev TestFn := Env → Nat → World → Except Fault World

/-- Function pointer arrays to hold tests; `none` is the `NULL` entry. -/
def percpu_tests : List (Option TestFn) :=
  [none, some percpu_test1, some percpu_test2, some percpu_test3]

def kmalloc_tests : List (Option TestFn) :=
  [none, some kmalloc_test1, some kmalloc_test2, some kmalloc_test3]

/-- The call `(*tbl[i])()` through entry `i` of a table. -/
def call_entry (tbl : List (Option TestFn)) (i : Int) (env : Env) (fuel : Nat) (w : World) :
    Except Fault World :=
  match tbl.get? i.toNat with
  | some (some f) => f env fuel w
  | _ => .error (.null_call w)

/-- The test driver. -/
def run_test (env : Env) (fuel : Nat) (w : World) : Except Fault World := do
  let w := w.emit (.pr_info (.m_iterations w.m_iterations))
  let w := w.emit (.pr_info (.test_num w.test_num))
  if w.test_num > 0 ∧ w.test_num ≤ NUM_TESTS then
    let w ← call_entry percpu_tests w.test_num env fuel w
    call_entry kmalloc_tests w.test_num env fuel w
  else if w.test_num = 0 then
    forLoop (fun i _ => decide (i ≤ NUM_TESTS)) (fun i => wrapInt (i + 1))
      (fun i w => do
        let w ← call_entry percpu_tests i env fuel w
        call_entry kmalloc_tests i env fuel w)
      fuel 1 w
  else
    pure (w.emit (.pr_info .invalid_test))

/-- Effect of one `arr[i] = call(...)` on the loop state. -/
def alloc_step (env : Env) (call : AllocCall) (i : Int) (s : Arr × World) : Arr × World :=
  (s.1.set i (env.allocRet s.2.nalloc),
    { s.2 with nalloc := s.2.nalloc + 1,
               trace := s.2.trace ++ [.alloc call i (env.allocRet s.2.nalloc)] })

/-- Effect of one `call(arr[i])` on the loop state. -/
def free_step (call : FreeCall) (i : Int) (s : Arr × World) : Arr × World :=
  (s.1, s.2.emit (.free call i (s.1 i)))

/-- The events of `n` consecutive stores into slots `0 .. n-1`, the allocator
having been called `n0` times before. -/
def allocEvents (env : Env) (call : AllocCall) (n0 n : Nat) : List Event :=
  (List.range n).map fun k : Nat => Event.alloc call (k : Int) (env.allocRet (n0 + k))

/-- The scratch array after those `n` stores. -/
def filled (env : Env) (n0 n : Nat) (arr : Arr) : Arr :=
  fun j => if 0 ≤ j ∧ j < (n : Int) then some (env.allocRet (n0 + j.toNat)) else arr j

/-- The events of releasing the slots listed in `idx`, in that order. -/
def freeEvents (call : FreeCall) (arr : Arr) (idx : List Int) : List Event :=
  idx.map fun i => Event.free call i (arr i)

/-- Indices `0, 1, ..., b-1`. -/
def ascending (b : Int) : List Int := (List.range b.toNat).map fun k : Nat => (k : Int)

/-- Indices `0, 2, 4, ...` below `b`. -/
def evens (b : Int) : List Int := (List.range ((b + 1) / 2).toNat).map fun k : Nat => 2 * (k : Int)

/-- Indices `1, 3, 5, ...` below `b`. -/
def odds (b : Int) : List Int := (List.range (b / 2).toNat).map fun k : Nat => 2 * (k : Int) + 1

/-- Indices `a, a-1, ..., 0`. -/
def descending (a : Int) : List Int := (List.range (a + 1).toNat).map fun k : Nat => a - (k : Int)

/-! ## Closed form of a whole test function -/

/-- The events of one test function: the prologue, the stores, the releases in
the order `order`, the epilogue. -/
def test_events (env : Env) (b : Backend) (k : Nat) (ac : AllocCall) (fc : FreeCall)
    (order : List Int) (w : World) : List Event :=
  [.vmalloc (vmalloc_size w.m_iterations), .pr_info (.start b k),
    .getnstimeofday (env.now w.nclock)] ++
  (allocEvents env ac w.nalloc (wrapInt (w.m_iterations * MILLION)).toNat ++
  (freeEvents fc (filled env w.nalloc (wrapInt (w.m_iterations * MILLION)).toNat Arr.empty) order ++
  [.getnstimeofday (env.now (w.nclock + 1)),
    .pr_info (.took b k (elapsed_ms (env.now w.nclock) (env.now (w.nclock + 1)))),
    .vfree]))

/-- The world after one test function. -/
def test_outcome (env : Env) (b : Backend) (k : Nat) (ac : AllocCall) (fc : FreeCall)
    (order : List Int) (w : World) : World :=
  { w with nalloc := w.nalloc + (wrapInt (w.m_iterations * MILLION)).toNat,
           nclock := w.nclock + 1 + 1,
           trace := w.trace ++ test_events env b k ac fc order w }

/-! ## Observations on traces -/

/-- The three release orders of the test legend. -/
inductive Order where
  | sequential
  | alternating
  | reverse
  deriving DecidableEq, Repr

/-- The number a test of that order carries in its name and log lines. -/
def Order.num : Order → Nat
  | .sequential => 1
  | .alternating => 2
  | .reverse => 3

/-- The six test functions of the source, by backend and release order. -/
def test_fn : Backend → Order → TestFn
  | .percpu, .sequential => percpu_test1
  | .percpu, .alternating => percpu_test2
  | .percpu, .reverse => percpu_test3
  | .kmalloc, .sequential => kmalloc_test1
  | .kmalloc, .alternating => kmalloc_test2
  | .kmalloc, .reverse => kmalloc_test3

/-- The allocation call a backend's tests make. -/
def alloc_call : Backend → AllocCall
  | .percpu => .alloc_percpu 16 4
  | .kmalloc => .kmalloc SIZEOF_INT .GFP_KERNEL

/-- The release call a backend's tests make. -/
def free_call : Backend → FreeCall
  | .percpu => .free_percpu
  | .kmalloc => .kfree

/-- The slots released by a test whose loop bound evaluates to `b`, in order. -/
def free_order : Order → Int → List Int
  | .sequential, b => ascending b
  | .alternating, b => evens b ++ odds b
  | .reverse, b => descending (wrapInt (b - 1))

/-- The events a run appended to the trace. -/
def events_since (w w1 : World) : List Event := w1.trace.drop w.trace.length

/-- The slot an allocation event stores into. -/
def Event.allocIdx : Event → Option Int
  | .alloc _ i _ => some i
  | _ => none

/-- The slot a release event reads. -/
def Event.freeIdx : Event → Option Int
  | .free _ i _ => some i
  | _ => none

/-- The slots written by the allocation calls of a trace, in order. -/
def alloc_indices (t : List Event) : List Int := t.filterMap Event.allocIdx

/-- The slots passed to the release calls of a trace, in order. -/
def free_indices (t : List Event) : List Int := t.filterMap Event.freeIdx

/-- Bookkeeping of the slots holding a block that was allocated and not yet released. -/
def outstanding_step (live : List Int) : Event → List Int
  | .alloc _ i _ => live ++ [i]
  | .free _ i _ => live.erase i
  | _ => live

/-- The slots still holding an unreleased block after a trace. -/
def outstanding (t : List Event) : List Int := t.foldl outstanding_step []

/-- The release order as a rearrangement of `0 .. n-1`. -/
def release_order : Order → Nat → List Nat
  | .sequential, n => List.range n
  | .alternating, n =>
    (List.range n).filter (fun k => k % 2 = 0) ++ (List.range n).filter (fun k => k % 2 = 1)
  | .reverse, n => (List.range n).reverse

/-! ## Sample inputs -/

/-- A sample reading of decimal digits. -/
def sample_digits : List Char → Option Nat
  | [] => none
  | cs => cs.foldl (fun acc c => acc.bind fun n =>
      if 48 ≤ c.toNat ∧ c.toNat ≤ 57 then some (10 * n + (c.toNat - 48)) else none) (some 0)

/-- A sample kernel: the `n`-th allocation returns address `4096 + 16 * n`, the clock
advances one millisecond per reading, and the parameter parser accepts decimal
numbers below `65536`, answering `-EINVAL` or `-ERANGE` otherwise. -/
def sample_env : Env where
  allocRet := fun n => 4096 + 16 * n
  now := fun n => ⟨1700000000, 1000000 * (n : Int)⟩
  param_set_ushort := fun val old =>
    match sample_digits val with
    | some n => if n < 65536 then (0, (n : Int)) else (-34, old)
    | none => (-22, old)

/-- A world with `m_iterations` and `test_num` as given and nothing done yet. -/
def fresh_world (m_iterations test_num : Int) : World :=
  ⟨m_iterations, test_num, 0, 0, []⟩

/-! ## Observations on the driver -/

/-- The world after the two lines `run_test` logs first. -/
def logged_header (w : World) : World :=
  (w.emit (.pr_info (.m_iterations w.m_iterations))).emit (.pr_info (.test_num w.test_num))

/-- A `start` or `took` line without its number of milliseconds. -/
inductive Mark where
  | start (b : Backend) (k : Nat)
  | took (b : Backend) (k : Nat)
  deriving DecidableEq, Repr

/-- The mark of an event that is a `start` or `took` line. -/
def Event.mark : Event → Option Mark
  | .pr_info (.start b k) => some (.start b k)
  | .pr_info (.took b k _) => some (.took b k)
  | _ => none

/-- The `start` and `took` lines of a trace, in order. -/
def marks (t : List Event) : List Mark := t.filterMap Event.mark

/-- The world after the test of backend `b` and order `o`, in closed form. -/
def single_outcome (env : Env) (b : Backend) (o : Order) (w : World) : World :=
  test_outcome env b o.num (alloc_call b) (free_call b)
    (free_order o (wrapInt (w.m_iterations * MILLION))) w

/-- The world after the percpu test and then the kmalloc test of order `o`. -/
def pair_outcome (env : Env) (o : Order) (w : World) : World :=
  single_outcome env .kmalloc o (single_outcome env .percpu o w)

/-! ## Comparing runs -/

/-- The event with the pointer values it carries blanked out. -/
def Event.erase_ptr : Event → Event
  | .alloc c i _ => .alloc c i 0
  | .free c i _ => .free c i none
  | e => e

/-- The event with the kmalloc backend renamed to the percpu backend: the allocation call,
the release call and the backend name of the `start` and `took` lines. -/
def Event.as_percpu : Event → Event
  | .alloc _ i r => .alloc (.alloc_percpu 16 4) i r
  | .free _ i p => .free .free_percpu i p
  | .pr_info (.start _ k) => .pr_info (.start .percpu k)
  | .pr_info (.took _ k ms) => .pr_info (.took .percpu k ms)
  | e => e

/-- An operation on a slot of the scratch array. -/
inductive SlotOp where
  | store (i : Int)
  | release (i : Int)
  deriving DecidableEq, Repr

/-- The slot operation of an allocation or release event. -/
def Event.slotOp : Event → Option SlotOp
  | .alloc _ i _ => some (.store i)
  | .free _ i _ => some (.release i)
  | _ => none

/-- The slot operations of a trace, in order. -/
def slot_ops (t : List Event) : List SlotOp := t.filterMap Event.slotOp

/-! ## How a run ends -/

/-- The world in which a run ended: the world it returned, or the world in which the code
faulted. -/
def last_world : Except Fault World → Option World
  | .ok w => some w
  | .error (.bad_access _ w) => some w
  | .error (.null_call w) => some w
  | .error .out_of_fuel => none

/-- The slot whose read ended a run in a fault, if that is how it ended. -/
def faulting_slot {α : Type} : Except Fault α → Option Int
  | .error (.bad_access i _) => some i
  | _ => none

/-- The world after the prologue of a test function: `vmalloc`, the `start` line and the
first clock reading. -/
def prologue_world (env : Env) (b : Backend) (k : Nat) (w : World) : World :=
  { w with nclock := w.nclock + 1,
           trace := w.trace ++ [.vmalloc (vmalloc_size w.m_iterations), .pr_info (.start b k),
             .getnstimeofday (env.now w.nclock)] }

/-! ## Machine arithmetic facts -/

theorem wrapInt_range (x : Int) : -2147483648 ≤ wrapInt x ∧ wrapInt x ≤ 2147483647 := by
  unfold wrapInt; omega

theorem wrapInt_id (x : Int) (h1 : -2147483648 ≤ x) (h2 : x ≤ 2147483647) : wrapInt x = x := by
  unfold wrapInt; omega

/-- The product with `MILLION` stays even after reduction to `int`. -/
theorem bound_le (m : Int) : wrapInt (m * MILLION) ≤ 2147483646 := by
  unfold wrapInt MILLION; omega

theorem bound_exact (m : Int) (h0 : -2147 ≤ m) (h1 : m ≤ 2147) :
    wrapInt (m * MILLION) = m * 1000000 := by
  unfold wrapInt MILLION; omega

/-! ## Loops -/

theorem forLoop_run {σ : Type} (cond : Int → σ → Bool) (next : Int → Int)
    (body : Int → σ → Except Fault σ) (step : Int → σ → σ) (inv : σ → Prop)
    (hinv : ∀ i s, inv s → inv (step i s))
    (hcond : ∀ i j s, cond j (step i s) = cond j s)
    (d : Int) (n : Nat) : ∀ (a : Int) (s : σ) (fuel : Nat),
    inv s →
    (∀ k : Nat, k < n → ∀ s1, inv s1 → body (a + d * k) s1 = .ok (step (a + d * k) s1)) →
    (∀ k : Nat, k < n → cond (a + d * k) s = true) →
    (∀ k : Nat, k < n → next (a + d * k) = a + d * (k + 1)) →
    cond (a + d * n) s = false → n < fuel →
    forLoop cond next body fuel a s =
      .ok (((List.range n).map (fun k : Nat => a + d * (k : Int))).foldl
        (fun s i => step i s) s) := by
  induction n with
  | zero =>
    intro a s fuel _ _ _ _ hout hf
    obtain ⟨f, rfl⟩ : ∃ f, fuel = f + 1 := ⟨fuel - 1, by omega⟩
    have h : cond a s = false := by simpa using hout
    simp [forLoop, h]
  | succ n ih =>
    intro a s fuel hs hbody hin hnext hout hf
    obtain ⟨f, rfl⟩ : ∃ f, fuel = f + 1 := ⟨fuel - 1, by omega⟩
    have h0 : cond a s = true := by simpa using hin 0 (by omega)
    have hn0 : next a = a + d := by simpa using hnext 0 (by omega)
    have hb0 : body a s = .ok (step a s) := by simpa using hbody 0 (by omega) s hs
    have e : ∀ k : Nat, a + d + d * (k : Int) = a + d * ((k + 1 : Nat) : Int) := by
      intro k; push_cast; ring
    have key := ih (a + d) (step a s) f (hinv a s hs)
      (fun k hk s1 hs1 => by
        have := hbody (k + 1) (by omega) s1 hs1
        rw [e]; exact this)
      (fun k hk => by
        have := hin (k + 1) (by omega)
        rw [hcond, e]; exact this)
      (fun k hk => by
        have := hnext (k + 1) (by omega)
        rw [e, this]; push_cast; ring)
      (by rw [hcond]; rw [← hout]; congr 1; push_cast; ring)
      (by omega)
    simp only [forLoop, h0, hb0, hn0, if_true]
    rw [key, List.range_succ_eq_map]
    simp only [List.map_cons, List.map_map, List.foldl_cons]
    congr 2
    · simp
    · apply List.map_congr_left
      intro k _
      simp only [Function.comp]
      push_cast; ring

theorem alloc_fold (env : Env) (call : AllocCall) (arr : Arr) (w : World) (n : Nat) :
    ((List.range n).map (fun k : Nat => (0 : Int) + 1 * (k : Int))).foldl
        (fun s i => alloc_step env call i s) (arr, w) =
      (filled env w.nalloc n arr,
        { w with nalloc := w.nalloc + n,
                 trace := w.trace ++ allocEvents env call w.nalloc n }) := by
  induction n with
  | zero =>
    simp only [List.range_zero, List.map_nil, List.foldl_nil, allocEvents, List.append_nil,
      Nat.add_zero]
    congr 1
    funext j
    simp only [filled]
    rw [if_neg]; push_cast; omega
  | succ n ih =>
    rw [List.range_succ, List.map_append, List.foldl_append, ih]
    simp only [List.map_cons, List.map_nil, List.foldl_cons, List.foldl_nil, alloc_step,
      allocEvents, List.range_succ, List.map_append, List.append_assoc]
    congr 1
    · funext j
      simp only [filled, Arr.set]
      by_cases hj : j = 0 + 1 * (n : Int)
      · subst hj
        rw [if_pos rfl, if_pos (by omega)]
        congr 2
        omega
      · rw [if_neg hj]
        by_cases h2 : 0 ≤ j ∧ j < (n : Int)
        · rw [if_pos h2, if_pos (by push_cast; omega)]
        · rw [if_neg h2, if_neg (by push_cast; omega)]
    · simp [Nat.add_assoc]

theorem free_fold (call : FreeCall) (arr : Arr) (idx : List Int) : ∀ w : World,
    idx.foldl (fun s i => free_step call i s) (arr, w) =
      (arr, { w with trace := w.trace ++ freeEvents call arr idx }) := by
  induction idx with
  | nil => intro w; simp [freeEvents]
  | cons i rest ih =>
    intro w
    rw [List.foldl_cons, show free_step call i (arr, w) = (arr, w.emit (.free call i (arr i))) from rfl,
      ih]
    simp [freeEvents, World.emit]

/-- The read of a written slot goes through. -/
theorem free_load_ok (call : FreeCall) (i : Int) (s : Arr × World) (h : (s.1 i).isSome) :
    free_load call i s = .ok (free_step call i s) := by
  unfold free_load free_step
  cases h1 : s.1 i with
  | none => rw [h1] at h; exact absurd h (by decide)
  | some p => rfl

theorem filled_isSome (env : Env) (n0 n : Nat) (arr : Arr) (j : Int) (h0 : 0 ≤ j)
    (h1 : j < (n : Int)) : (filled env n0 n arr j).isSome := by
  unfold filled
  rw [if_pos ⟨h0, h1⟩]
  rfl

theorem alloc_loop_run (env : Env) (call : AllocCall) (arr : Arr) (w : World) (fuel : Nat)
    (hf : 2147483648 < fuel) :
    forLoop below_bound (fun i => wrapInt (i + 1)) (alloc_store env call) fuel 0 (arr, w) =
      .ok (filled env w.nalloc (wrapInt (w.m_iterations * MILLION)).toNat arr,
        { w with nalloc := w.nalloc + (wrapInt (w.m_iterations * MILLION)).toNat,
                 trace := w.trace ++
                   allocEvents env call w.nalloc (wrapInt (w.m_iterations * MILLION)).toNat }) := by
  have hb := bound_le w.m_iterations
  have hr := wrapInt_range (w.m_iterations * MILLION)
  rw [forLoop_run below_bound _ (alloc_store env call) (alloc_step env call) (fun _ => True)
    (fun _ _ _ => trivial) (fun _ _ _ => rfl) 1 (wrapInt (w.m_iterations * MILLION)).toNat 0
    (arr, w) fuel trivial (fun _ _ _ _ => rfl)
    (fun k hk => by simp only [below_bound, decide_eq_true_eq]; omega)
    (fun k hk => by
      show wrapInt _ = _
      rw [wrapInt_id] <;> omega)
    (by simp only [below_bound, decide_eq_false_iff_not]; omega)
    (by omega)]
  rw [alloc_fold]

theorem free_loop_up1 (call : FreeCall) (arr : Arr) (w : World) (fuel : Nat)
    (hf : 2147483648 < fuel)
    (harr : ∀ j : Int, 0 ≤ j → j < wrapInt (w.m_iterations * MILLION) → (arr j).isSome) :
    forLoop below_bound (fun i => wrapInt (i + 1)) (free_load call) fuel 0 (arr, w) =
      .ok (arr, { w with trace := w.trace ++
        (freeEvents call arr (ascending (wrapInt (w.m_iterations * MILLION)))) }) := by
  have hb := bound_le w.m_iterations
  have hr := wrapInt_range (w.m_iterations * MILLION)
  rw [forLoop_run below_bound _ (free_load call) (free_step call)
    (fun s => s.1 = arr ∧ s.2.m_iterations = w.m_iterations)
    (fun _ _ h => h) (fun _ _ _ => rfl) 1 (wrapInt (w.m_iterations * MILLION)).toNat 0
    (arr, w) fuel ⟨rfl, rfl⟩
    (fun k hk s1 hs1 => free_load_ok _ _ _ (by rw [hs1.1]; exact harr _ (by omega) (by omega)))
    (fun k hk => by simp only [below_bound, decide_eq_true_eq]; omega)
    (fun k hk => by
      show wrapInt _ = _
      rw [wrapInt_id] <;> omega)
    (by simp only [below_bound, decide_eq_false_iff_not]; omega)
    (by omega)]
  rw [free_fold]
  simp [ascending]

theorem free_loop_even (call : FreeCall) (arr : Arr) (w : World) (fuel : Nat)
    (hf : 2147483648 < fuel)
    (harr : ∀ j : Int, 0 ≤ j → j < wrapInt (w.m_iterations * MILLION) → (arr j).isSome) :
    forLoop below_bound (fun i => wrapInt (i + 2)) (free_load call) fuel 0 (arr, w) =
      .ok (arr, { w with trace := w.trace ++
        (freeEvents call arr (evens (wrapInt (w.m_iterations * MILLION)))) }) := by
  have hb := bound_le w.m_iterations
  have hr := wrapInt_range (w.m_iterations * MILLION)
  rw [forLoop_run below_bound _ (free_load call) (free_step call)
    (fun s => s.1 = arr ∧ s.2.m_iterations = w.m_iterations)
    (fun _ _ h => h) (fun _ _ _ => rfl) 2 ((wrapInt (w.m_iterations * MILLION) + 1) / 2).toNat
    0 (arr, w) fuel ⟨rfl, rfl⟩
    (fun k hk s1 hs1 => free_load_ok _ _ _ (by rw [hs1.1]; exact harr _ (by omega) (by omega)))
    (fun k hk => by simp only [below_bound, decide_eq_true_eq]; omega)
    (fun k hk => by
      show wrapInt _ = _
      rw [wrapInt_id] <;> omega)
    (by simp only [below_bound, decide_eq_false_iff_not]; omega)
    (by omega)]
  rw [free_fold]
  simp [evens]

theorem free_loop_odd (call : FreeCall) (arr : Arr) (w : World) (fuel : Nat)
    (hf : 2147483648 < fuel)
    (harr : ∀ j : Int, 0 ≤ j → j < wrapInt (w.m_iterations * MILLION) → (arr j).isSome) :
    forLoop below_bound (fun i => wrapInt (i + 2)) (free_load call) fuel 1 (arr, w) =
      .ok (arr, { w with trace := w.trace ++
        (freeEvents call arr (odds (wrapInt (w.m_iterations * MILLION)))) }) := by
  have hb := bound_le w.m_iterations
  have hr := wrapInt_range (w.m_iterations * MILLION)
  rw [forLoop_run below_bound _ (free_load call) (free_step call)
    (fun s => s.1 = arr ∧ s.2.m_iterations = w.m_iterations)
    (fun _ _ h => h) (fun _ _ _ => rfl) 2 (wrapInt (w.m_iterations * MILLION) / 2).toNat
    1 (arr, w) fuel ⟨rfl, rfl⟩
    (fun k hk s1 hs1 => free_load_ok _ _ _ (by rw [hs1.1]; exact harr _ (by omega) (by omega)))
    (fun k hk => by simp only [below_bound, decide_eq_true_eq]; omega)
    (fun k hk => by
      show wrapInt _ = _
      rw [wrapInt_id] <;> omega)
    (by simp only [below_bound, decide_eq_false_iff_not]; omega)
    (by omega)]
  rw [free_fold]
  have e : (List.range (wrapInt (w.m_iterations * MILLION) / 2).toNat).map
      (fun k : Nat => (1 : Int) + 2 * (k : Int)) = odds (wrapInt (w.m_iterations * MILLION)) := by
    unfold odds
    apply List.map_congr_left
    intro k _
    omega
  rw [e]

theorem free_loop_down (call : FreeCall) (arr : Arr) (w : World) (a : Int) (fuel : Nat)
    (h1 : -2147483648 ≤ a) (h2 : a ≤ 2147483647) (hf : 2147483648 < fuel)
    (harr : ∀ j : Int, 0 ≤ j → j ≤ a → (arr j).isSome) :
    forLoop non_negative (fun i => wrapInt (i - 1)) (free_load call) fuel a (arr, w) =
      .ok (arr, { w with trace := w.trace ++ freeEvents call arr (descending a) }) := by
  rw [forLoop_run non_negative _ (free_load call) (free_step call) (fun s => s.1 = arr)
    (fun _ _ h => h) (fun _ _ _ => rfl) (-1) (a + 1).toNat a (arr, w) fuel rfl
    (fun k hk s1 hs1 => free_load_ok _ _ _ (by rw [hs1]; exact harr _ (by omega) (by omega)))
    (fun k hk => by simp only [non_negative, decide_eq_true_eq]; omega)
    (fun k hk => by
      show wrapInt _ = _
      rw [wrapInt_id] <;> omega)
    (by simp only [non_negative, decide_eq_false_iff_not]; omega)
    (by omega)]
  rw [free_fold]
  have e : (List.range (a + 1).toNat).map (fun k : Nat => a + (-1) * (k : Int)) = descending a := by
    unfold descending
    apply List.map_congr_left
    intro k _
    omega
  rw [e]

/-! ## The six test functions in closed form -/

theorem filled_written (env : Env) (w : World) (j : Int) (h0 : 0 ≤ j)
    (h1 : j < wrapInt (w.m_iterations * MILLION)) :
    (filled env w.nalloc (wrapInt (w.m_iterations * MILLION)).toNat Arr.empty j).isSome :=
  filled_isSome _ _ _ _ _ h0 (by omega)

theorem percpu_test1_run (env : Env) (fuel : Nat) (w : World) (hf : 2147483648 < fuel) :
    percpu_test1 env fuel w = .ok (test_outcome env .percpu 1 (.alloc_percpu 16 4) .free_percpu
      (ascending (wrapInt (w.m_iterations * MILLION))) w) := by
  simp only [percpu_test1, getnstimeofday, World.emit, bind, Except.bind, pure, Except.pure]
  rw [alloc_loop_run _ _ _ _ _ hf]
  simp only []
  rw [free_loop_up1 _ _ _ _ hf]
  · simp [test_outcome, test_events]
  · exact fun j h0 h1 => filled_written env w j h0 h1

theorem percpu_test2_run (env : Env) (fuel : Nat) (w : World) (hf : 2147483648 < fuel) :
    percpu_test2 env fuel w = .ok (test_outcome env .percpu 2 (.alloc_percpu 16 4) .free_percpu
      (evens (wrapInt (w.m_iterations * MILLION)) ++ odds (wrapInt (w.m_iterations * MILLION)))
      w) := by
  simp only [percpu_test2, getnstimeofday, World.emit, bind, Except.bind, pure, Except.pure]
  rw [alloc_loop_run _ _ _ _ _ hf]
  simp only []
  rw [free_loop_even _ _ _ _ hf]
  · simp only []
    rw [free_loop_odd _ _ _ _ hf]
    · simp [test_outcome, test_events, freeEvents]
    · exact fun j h0 h1 => filled_written env w j h0 h1
  · exact fun j h0 h1 => filled_written env w j h0 h1

theorem percpu_test3_run (env : Env) (fuel : Nat) (w : World) (hf : 2147483648 < fuel)
    (hb : wrapInt (w.m_iterations * MILLION) ≠ -2147483648) :
    percpu_test3 env fuel w = .ok (test_outcome env .percpu 3 (.alloc_percpu 16 4) .free_percpu
      (descending (wrapInt (wrapInt (w.m_iterations * MILLION) - 1))) w) := by
  have hr := wrapInt_range (wrapInt (w.m_iterations * MILLION) - 1)
  have hr0 := wrapInt_range (w.m_iterations * MILLION)
  have hid : wrapInt (wrapInt (w.m_iterations * MILLION) - 1) =
      wrapInt (w.m_iterations * MILLION) - 1 := wrapInt_id _ (by omega) (by omega)
  simp only [percpu_test3, getnstimeofday, World.emit, bind, Except.bind, pure, Except.pure]
  rw [alloc_loop_run _ _ _ _ _ hf]
  simp only []
  rw [free_loop_down _ _ _ _ _ hr.1 hr.2 hf]
  · simp [test_outcome, test_events]
  · exact fun j h0 h1 => filled_written env w j h0 (by rw [hid] at h1; omega)

theorem kmalloc_test1_run (env : Env) (fuel : Nat) (w : World) (hf : 2147483648 < fuel) :
    kmalloc_test1 env fuel w = .ok (test_outcome env .kmalloc 1 (.kmalloc SIZEOF_INT .GFP_KERNEL)
      .kfree (ascending (wrapInt (w.m_iterations * MILLION))) w) := by
  simp only [kmalloc_test1, getnstimeofday, World.emit, bind, Except.bind, pure, Except.pure]
  rw [alloc_loop_run _ _ _ _ _ hf]
  simp only []
  rw [free_loop_up1 _ _ _ _ hf]
  · simp [test_outcome, test_events]
  · exact fun j h0 h1 => filled_written env w j h0 h1

theorem kmalloc_test2_run (env : Env) (fuel : Nat) (w : World) (hf : 2147483648 < fuel) :
    kmalloc_test2 env fuel w = .ok (test_outcome env .kmalloc 2 (.kmalloc SIZEOF_INT .GFP_KERNEL)
      .kfree
      (evens (wrapInt (w.m_iterations * MILLION)) ++ odds (wrapInt (w.m_iterations * MILLION)))
      w) := by
  simp only [kmalloc_test2, getnstimeofday, World.emit, bind, Except.bind, pure, Except.pure]
  rw [alloc_loop_run _ _ _ _ _ hf]
  simp only []
  rw [free_loop_even _ _ _ _ hf]
  · simp only []
    rw [free_loop_odd _ _ _ _ hf]
    · simp [test_outcome, test_events, freeEvents]
    · exact fun j h0 h1 => filled_written env w j h0 h1
  · exact fun j h0 h1 => filled_written env w j h0 h1

theorem kmalloc_test3_run (env : Env) (fuel : Nat) (w : World) (hf : 2147483648 < fuel)
    (hb : wrapInt (w.m_iterations * MILLION) ≠ -2147483648) :
    kmalloc_test3 env fuel w = .ok (test_outcome env .kmalloc 3 (.kmalloc SIZEOF_INT .GFP_KERNEL)
      .kfree (descending (wrapInt (wrapInt (w.m_iterations * MILLION) - 1))) w) := by
  have hr := wrapInt_range (wrapInt (w.m_iterations * MILLION) - 1)
  have hr0 := wrapInt_range (w.m_iterations * MILLION)
  have hid : wrapInt (wrapInt (w.m_iterations * MILLION) - 1) =
      wrapInt (w.m_iterations * MILLION) - 1 := wrapInt_id _ (by omega) (by omega)
  simp only [kmalloc_test3, getnstimeofday, World.emit, bind, Except.bind, pure, Except.pure]
  rw [alloc_loop_run _ _ _ _ _ hf]
  simp only []
  rw [free_loop_down _ _ _ _ _ hr.1 hr.2 hf]
  · simp [test_outcome, test_events]
  · exact fun j h0 h1 => filled_written env w j h0 (by rw [hid] at h1; omega)

/-- With the loop bound `INT_MIN`, the reverse loop starts at `INT_MAX` and its first read,
of a slot never written, is a fault. -/
theorem reverse_loop_faults (call : FreeCall) (w : World) (fuel : Nat) (hf : 0 < fuel) :
    forLoop non_negative (fun i => wrapInt (i - 1)) (free_load call) fuel 2147483647
      (Arr.empty, w) = .error (.bad_access 2147483647 w) := by
  obtain ⟨f, rfl⟩ : ∃ f, fuel = f + 1 := ⟨fuel - 1, by omega⟩
  rfl

theorem percpu_test3_faults (env : Env) (fuel : Nat) (w : World) (hf : 2147483648 < fuel)
    (hb : wrapInt (w.m_iterations * MILLION) = -2147483648) :
    percpu_test3 env fuel w = .error (.bad_access 2147483647 (prologue_world env .percpu 3 w)) := by
  have e1 : wrapInt (-2147483648 - 1) = 2147483647 := by decide
  have e2 : ∀ n0 : Nat, filled env n0 0 Arr.empty = Arr.empty := by
    intro n0; funext j; unfold filled; rw [if_neg]; simp
  simp only [percpu_test3, getnstimeofday, World.emit, bind, Except.bind, pure, Except.pure]
  rw [alloc_loop_run _ _ _ _ _ hf]
  simp only [hb, e1, Int.toNat_neg_nat, allocEvents]
  have e3 : (-2147483648 : Int).toNat = 0 := by decide
  simp only [e3, e2, List.range_zero, List.map_nil, List.append_nil, Nat.add_zero]
  rw [reverse_loop_faults _ _ _ (by omega)]
  simp [prologue_world]

theorem kmalloc_test3_faults (env : Env) (fuel : Nat) (w : World) (hf : 2147483648 < fuel)
    (hb : wrapInt (w.m_iterations * MILLION) = -2147483648) :
    kmalloc_test3 env fuel w =
      .error (.bad_access 2147483647 (prologue_world env .kmalloc 3 w)) := by
  have e1 : wrapInt (-2147483648 - 1) = 2147483647 := by decide
  have e2 : ∀ n0 : Nat, filled env n0 0 Arr.empty = Arr.empty := by
    intro n0; funext j; unfold filled; rw [if_neg]; simp
  simp only [kmalloc_test3, getnstimeofday, World.emit, bind, Except.bind, pure, Except.pure]
  rw [alloc_loop_run _ _ _ _ _ hf]
  simp only [hb, e1, Int.toNat_neg_nat, allocEvents]
  have e3 : (-2147483648 : Int).toNat = 0 := by decide
  simp only [e3, e2, List.range_zero, List.map_nil, List.append_nil, Nat.add_zero]
  rw [reverse_loop_faults _ _ _ (by omega)]
  simp [prologue_world]

/-- Each of the six test functions returns, and leaves the closed-form world, unless it is a
test 3 whose loop bound is `INT_MIN`. -/
theorem test_fn_run (env : Env) (b : Backend) (o : Order) (fuel : Nat) (w : World)
    (hf : 2147483648 < fuel)
    (hb : o = .reverse → wrapInt (w.m_iterations * MILLION) ≠ -2147483648) :
    test_fn b o env fuel w = .ok (test_outcome env b o.num (alloc_call b) (free_call b)
      (free_order o (wrapInt (w.m_iterations * MILLION))) w) := by
  cases b <;> cases o
  · exact percpu_test1_run env fuel w hf
  · exact percpu_test2_run env fuel w hf
  · exact percpu_test3_run env fuel w hf (hb rfl)
  · exact kmalloc_test1_run env fuel w hf
  · exact kmalloc_test2_run env fuel w hf
  · exact kmalloc_test3_run env fuel w hf (hb rfl)

/-- A test 3 whose loop bound is `INT_MIN` faults on its first read, in the world its
prologue left. -/
theorem test_fn_faults (env : Env) (b : Backend) (fuel : Nat) (w : World)
    (hf : 2147483648 < fuel) (hb : wrapInt (w.m_iterations * MILLION) = -2147483648) :
    test_fn b .reverse env fuel w =
      .error (.bad_access 2147483647 (prologue_world env b 3 w)) := by
  cases b
  · exact percpu_test3_faults env fuel w hf hb
  · exact kmalloc_test3_faults env fuel w hf hb

theorem events_since_outcome (env : Env) (b : Backend) (k : Nat) (ac : AllocCall) (fc : FreeCall)
    (order : List Int) (w : World) :
    events_since w (test_outcome env b k ac fc order w) = test_events env b k ac fc order w := by
  simp [events_since, test_outcome]

/-! ## Release orders -/

theorem filter_even_range (n : Nat) :
    (List.range n).filter (fun k => k % 2 = 0) = (List.range ((n + 1) / 2)).map (fun k => 2 * k) := by
  induction n with
  | zero => rfl
  | succ n ih =>
    rw [List.range_succ, List.filter_append, ih]
    rcases Nat.even_or_odd n with h | h
    · have e : (n + 1 + 1) / 2 = (n + 1) / 2 + 1 := by
        obtain ⟨r, hr⟩ := h; omega
      have e2 : 2 * ((n + 1) / 2) = n := by obtain ⟨r, hr⟩ := h; omega
      have e3 : n % 2 = 0 := by obtain ⟨r, hr⟩ := h; omega
      rw [e, List.range_succ, List.map_append]
      simp [e2, e3]
    · have e : (n + 1 + 1) / 2 = (n + 1) / 2 := by
        obtain ⟨r, hr⟩ := h; omega
      have e3 : n % 2 = 1 := by obtain ⟨r, hr⟩ := h; omega
      rw [e]
      simp [e3]

theorem filter_odd_range (n : Nat) :
    (List.range n).filter (fun k => k % 2 = 1) = (List.range (n / 2)).map (fun k => 2 * k + 1) := by
  induction n with
  | zero => rfl
  | succ n ih =>
    rw [List.range_succ, List.filter_append, ih]
    rcases Nat.even_or_odd n with h | h
    · have e : (n + 1) / 2 = n / 2 := by
        obtain ⟨r, hr⟩ := h; omega
      have e3 : n % 2 = 0 := by obtain ⟨r, hr⟩ := h; omega
      rw [e]
      simp [e3]
    · have e : (n + 1) / 2 = n / 2 + 1 := by
        obtain ⟨r, hr⟩ := h; omega
      have e2 : 2 * (n / 2) + 1 = n := by obtain ⟨r, hr⟩ := h; omega
      have e3 : n % 2 = 1 := by obtain ⟨r, hr⟩ := h; omega
      rw [e, List.range_succ, List.map_append]
      simp [e2, e3]

theorem reverse_range_eq (n : Nat) :
    (List.range n).reverse = (List.range n).map (fun k => n - 1 - k) := by
  apply List.ext_getElem
  · simp
  · intro i h1 h2
    simp only [List.length_reverse, List.length_range] at h1
    simp [List.getElem_reverse]

theorem release_order_perm (o : Order) (n : Nat) : (release_order o n).Perm (List.range n) := by
  cases o
  · exact List.Perm.refl _
  · have h := List.filter_append_perm (fun k : Nat => decide (k % 2 = 0)) (List.range n)
    have e : (List.range n).filter (fun k => !decide (k % 2 = 0)) =
        (List.range n).filter (fun k => decide (k % 2 = 1)) := by
      apply List.filter_congr
      intro k _
      rcases Nat.mod_two_eq_zero_or_one k with h | h <;> simp [h]
    rw [e] at h
    exact h
  · exact List.reverse_perm _

theorem free_order_eq (o : Order) (b : Int) (h0 : 0 ≤ b) (h1 : b ≤ 2147483647) :
    free_order o b = (release_order o b.toNat).map (fun k : Nat => (k : Int)) := by
  cases o
  · rfl
  · simp only [free_order, release_order, filter_even_range, filter_odd_range, List.map_append,
      List.map_map, evens, odds]
    have e1 : ((b + 1) / 2).toNat = (b.toNat + 1) / 2 := by omega
    have e2 : (b / 2).toNat = b.toNat / 2 := by omega
    rw [e1, e2]
    simp [Function.comp_def]
  · simp only [free_order, release_order, reverse_range_eq, List.map_map, descending]
    rw [wrapInt_id _ (by omega) (by omega)]
    have e1 : (b - 1 + 1).toNat = b.toNat := by omega
    rw [e1]
    apply List.map_congr_left
    intro k hk
    have := List.mem_range.mp hk
    simp only [Function.comp]
    omega

/-! ## Slots and blocks -/

theorem freeEvents_filled (env : Env) (fc : FreeCall) (n0 n : Nat) (order : List Nat)
    (h : ∀ k ∈ order, k < n) :
    freeEvents fc (filled env n0 n Arr.empty) (order.map (fun k : Nat => (k : Int))) =
      order.map (fun k : Nat => Event.free fc (k : Int) (some (env.allocRet (n0 + k)))) := by
  simp only [freeEvents, List.map_map]
  apply List.map_congr_left
  intro k hk
  have := h k hk
  simp only [Function.comp, filled]
  rw [if_pos (by omega)]
  simp

theorem diff_self_nil (l : List Int) : l.diff l = [] := by
  induction l with
  | nil => rfl
  | cons a l ih => simp [List.diff_cons, ih]

theorem outstanding_allocs (f : Nat → Event) (hf : ∀ k, (f k).allocIdx = some (k : Int))
    (n : Nat) (live : List Int) :
    ((List.range n).map f).foldl outstanding_step live =
      live ++ (List.range n).map (fun k : Nat => (k : Int)) := by
  induction n with
  | zero => simp
  | succ n ih =>
    rw [List.range_succ, List.map_append, List.foldl_append, ih]
    have := hf n
    cases hfn : f n <;> rw [hfn] at this <;> simp [Event.allocIdx] at this
    subst this
    simp [outstanding_step, hfn]

theorem outstanding_frees (f : Nat → Event) (hf : ∀ k, (f k).freeIdx = some (k : Int))
    (order : List Nat) : ∀ live : List Int,
    (order.map f).foldl outstanding_step live =
      live.diff (order.map (fun k : Nat => (k : Int))) := by
  induction order with
  | nil => intro live; simp
  | cons k rest ih =>
    intro live
    rw [List.map_cons, List.foldl_cons, ih]
    have := hf k
    cases hfk : f k <;> rw [hfk] at this <;> simp [Event.freeIdx] at this
    subst this
    simp [outstanding_step, List.diff_cons]

theorem outstanding_quiet (t : List Event) (h : ∀ e ∈ t, e.allocIdx = none ∧ e.freeIdx = none) :
    ∀ live : List Int, t.foldl outstanding_step live = live := by
  induction t with
  | nil => intro live; rfl
  | cons e rest ih =>
    intro live
    have he := h e (List.mem_cons_self _ _)
    rw [List.foldl_cons]
    have : outstanding_step live e = live := by
      cases e <;> simp [Event.allocIdx, Event.freeIdx] at he <;> rfl
    rw [this]
    exact ih (fun e1 h1 => h e1 (List.mem_cons_of_mem _ h1)) live

theorem outstanding_balanced (pre post : List Event) (fa ff : Nat → Event) (n : Nat)
    (order : List Nat)
    (hpre : ∀ e ∈ pre, e.allocIdx = none ∧ e.freeIdx = none)
    (hpost : ∀ e ∈ post, e.allocIdx = none ∧ e.freeIdx = none)
    (hfa : ∀ k, (fa k).allocIdx = some (k : Int)) (hff : ∀ k, (ff k).freeIdx = some (k : Int))
    (hperm : order.Perm (List.range n)) :
    outstanding (pre ++ (List.range n).map fa ++ order.map ff ++ post) = [] := by
  unfold outstanding
  rw [List.foldl_append, List.foldl_append, List.foldl_append, outstanding_quiet pre hpre,
    outstanding_allocs fa hfa, outstanding_frees ff hff, outstanding_quiet post hpost,
    List.nil_append, List.Perm.diff_left _ (hperm.map _), diff_self_nil]

/-! ## Observations of a test function's events -/

theorem free_indices_test_events (env : Env) (b : Backend) (k : Nat) (ac : AllocCall)
    (fc : FreeCall) (order : List Int) (w : World) :
    free_indices (test_events env b k ac fc order w) = order := by
  simp [free_indices, test_events, allocEvents, freeEvents, List.filterMap_append,
    List.filterMap_map, Function.comp_def, Event.freeIdx]

theorem filterMap_const_none {α β : Type} (l : List α) :
    l.filterMap (fun _ => (none : Option β)) = [] := by
  induction l with
  | nil => rfl
  | cons a l ih => simp [List.filterMap_cons, ih]

theorem events_since_append (w w1 : World) (t : List Event) (h : w1.trace = w.trace ++ t) :
    events_since w w1 = t := by
  simp [events_since, h]

theorem marks_test_events (env : Env) (b : Backend) (k : Nat) (ac : AllocCall) (fc : FreeCall)
    (order : List Int) (w : World) :
    marks (test_events env b k ac fc order w) = [Mark.start b k, Mark.took b k] := by
  simp only [marks, test_events, allocEvents, freeEvents, List.filterMap_append,
    List.filterMap_cons, List.filterMap_nil, Event.mark]
  rw [List.filterMap_map (l := order), List.filterMap_map (l := List.range _)]
  simp only [Function.comp_def, Event.mark]
  rw [filterMap_const_none, filterMap_const_none]
  rfl

theorem call_entry_percpu (o : Order) : call_entry percpu_tests (o.num : Int) = test_fn .percpu o := by
  cases o <;> rfl

theorem call_entry_kmalloc (o : Order) :
    call_entry kmalloc_tests (o.num : Int) = test_fn .kmalloc o := by
  cases o <;> rfl

theorem single_run (env : Env) (b : Backend) (o : Order) (fuel : Nat) (w : World)
    (hf : 2147483648 < fuel)
    (hb : o = .reverse → wrapInt (w.m_iterations * MILLION) ≠ -2147483648) :
    test_fn b o env fuel w = .ok (single_outcome env b o w) :=
  test_fn_run env b o fuel w hf hb

/-- The percpu test and then the kmalloc test of one order, as the driver calls them. -/
theorem pair_run (env : Env) (o : Order) (fuel : Nat) (w : World) (hf : 2147483648 < fuel)
    (hb : o = .reverse → wrapInt (w.m_iterations * MILLION) ≠ -2147483648) :
    (call_entry percpu_tests (o.num : Int) env fuel w).bind
        (fun w2 => call_entry kmalloc_tests (o.num : Int) env fuel w2) =
      .ok (pair_outcome env o w) := by
  rw [call_entry_percpu, call_entry_kmalloc, single_run env .percpu o fuel w hf hb]
  show test_fn .kmalloc o env fuel _ = _
  rw [single_run env .kmalloc o fuel (single_outcome env .percpu o w) hf hb]
  rfl

/-- With the loop bound `INT_MIN`, the percpu test 3 faults and the kmalloc test 3 is not
reached. -/
theorem pair_faults (env : Env) (fuel : Nat) (w : World) (hf : 2147483648 < fuel)
    (hb : wrapInt (w.m_iterations * MILLION) = -2147483648) :
    (call_entry percpu_tests 3 env fuel w).bind
        (fun w2 => call_entry kmalloc_tests 3 env fuel w2) =
      .error (.bad_access 2147483647 (prologue_world env .percpu 3 w)) := by
  have e : call_entry percpu_tests 3 = test_fn .percpu .reverse := rfl
  rw [e, test_fn_faults env .percpu fuel w hf hb]
  rfl

theorem single_trace (env : Env) (b : Backend) (o : Order) (w : World) :
    (single_outcome env b o w).trace = w.trace ++ test_events env b o.num (alloc_call b)
      (free_call b) (free_order o (wrapInt (w.m_iterations * MILLION))) w :=
  rfl

theorem run_test_unfold (env : Env) (fuel : Nat) (w : World) :
    run_test env fuel w =
      if (logged_header w).test_num > 0 ∧ (logged_header w).test_num ≤ NUM_TESTS then
        (call_entry percpu_tests (logged_header w).test_num env fuel (logged_header w)).bind
          (fun w1 => call_entry kmalloc_tests w1.test_num env fuel w1)
      else if (logged_header w).test_num = 0 then
        forLoop (fun i _ => decide (i ≤ NUM_TESTS)) (fun i => wrapInt (i + 1))
          (fun i w1 => (call_entry percpu_tests i env fuel w1).bind
            (fun w2 => call_entry kmalloc_tests i env fuel w2))
          fuel 1 (logged_header w)
      else
        .ok ((logged_header w).emit (.pr_info .invalid_test)) :=
  rfl

/-- With `test_num` in `1 .. 3`, the driver runs the percpu test and then the kmalloc test
of that number. -/
theorem run_test_single (env : Env) (fuel : Nat) (w : World) (o : Order)
    (h : w.test_num = (o.num : Int)) (hf : 2147483648 < fuel)
    (hb : o = .reverse → wrapInt (w.m_iterations * MILLION) ≠ -2147483648) :
    run_test env fuel w = .ok (pair_outcome env o (logged_header w)) := by
  have h1 : (logged_header w).test_num = (o.num : Int) := h
  have hv : (logged_header w).test_num > 0 ∧ (logged_header w).test_num ≤ NUM_TESTS := by
    rw [h1]; cases o <;> decide
  rw [run_test_unfold, if_pos hv, h1, call_entry_percpu,
    single_run env .percpu o fuel (logged_header w) hf hb]
  show call_entry kmalloc_tests (single_outcome env .percpu o (logged_header w)).test_num env
    fuel _ = _
  have h2 : (single_outcome env .percpu o (logged_header w)).test_num = (o.num : Int) := h
  rw [h2, call_entry_kmalloc,
    single_run env .kmalloc o fuel (single_outcome env .percpu o (logged_header w)) hf hb]
  rfl

/-- With `test_num = 3` and the loop bound `INT_MIN`, the driver ends in the fault of the
percpu test 3. -/
theorem run_test_single_faults (env : Env) (fuel : Nat) (w : World) (h : w.test_num = 3)
    (hf : 2147483648 < fuel) (hb : wrapInt (w.m_iterations * MILLION) = -2147483648) :
    run_test env fuel w =
      .error (.bad_access 2147483647 (prologue_world env .percpu 3 (logged_header w))) := by
  have h1 : (logged_header w).test_num = 3 := h
  have hv : (logged_header w).test_num > 0 ∧ (logged_header w).test_num ≤ NUM_TESTS := by
    rw [h1]; decide
  have e : call_entry percpu_tests 3 = test_fn .percpu .reverse := rfl
  rw [run_test_unfold, if_pos hv, h1, e,
    test_fn_faults env .percpu fuel (logged_header w) hf hb]
  rfl

/-- With `test_num = 0`, the driver runs the six tests, percpu before kmalloc, by number. -/
theorem run_test_all (env : Env) (fuel : Nat) (w : World) (h : w.test_num = 0)
    (hf : 2147483648 < fuel) (hb : wrapInt (w.m_iterations * MILLION) ≠ -2147483648) :
    run_test env fuel w = .ok (pair_outcome env .reverse (pair_outcome env .alternating
      (pair_outcome env .sequential (logged_header w)))) := by
  have h1 : (logged_header w).test_num = 0 := h
  have hv : ¬ ((logged_header w).test_num > 0 ∧ (logged_header w).test_num ≤ NUM_TESTS) := by
    rw [h1]; decide
  obtain ⟨f, hfu⟩ : ∃ f, fuel = f + 4 := ⟨fuel - 4, by omega⟩
  have e2 : wrapInt (1 + 1) = 2 := by decide
  have e3 : wrapInt (2 + 1) = 3 := by decide
  have e4 : wrapInt (3 + 1) = 4 := by decide
  have c1 : decide ((1 : Int) ≤ NUM_TESTS) = true := by decide
  have c2 : decide ((2 : Int) ≤ NUM_TESTS) = true := by decide
  have c3 : decide ((3 : Int) ≤ NUM_TESTS) = true := by decide
  have c4 : decide ((4 : Int) ≤ NUM_TESTS) = false := by decide
  have b1 := pair_run env .sequential fuel (logged_header w) hf (fun h => by cases h)
  have b2 := pair_run env .alternating fuel (pair_outcome env .sequential (logged_header w)) hf
    (fun h => by cases h)
  have b3 := pair_run env .reverse fuel
    (pair_outcome env .alternating (pair_outcome env .sequential (logged_header w))) hf
    (fun _ => hb)
  simp only [Order.num, Nat.cast_ofNat, Nat.cast_one] at b1 b2 b3
  rw [run_test_unfold, if_neg hv, if_pos h1]
  rw [hfu] at b1 b2 b3 ⊢
  simp only [forLoop, c1, c2, c3, c4, e2, e3, e4, b1, b2, b3, if_true, Bool.false_eq_true,
    if_false]

/-- With `test_num = 0` and the loop bound `INT_MIN`, the driver runs tests 1 and 2 of both
backends and ends in the fault of the percpu test 3. -/
theorem run_test_all_faults (env : Env) (fuel : Nat) (w : World) (h : w.test_num = 0)
    (hf : 2147483648 < fuel) (hb : wrapInt (w.m_iterations * MILLION) = -2147483648) :
    run_test env fuel w = .error (.bad_access 2147483647 (prologue_world env .percpu 3
      (pair_outcome env .alternating (pair_outcome env .sequential (logged_header w))))) := by
  have h1 : (logged_header w).test_num = 0 := h
  have hv : ¬ ((logged_header w).test_num > 0 ∧ (logged_header w).test_num ≤ NUM_TESTS) := by
    rw [h1]; decide
  obtain ⟨f, hfu⟩ : ∃ f, fuel = f + 4 := ⟨fuel - 4, by omega⟩
  have e2 : wrapInt (1 + 1) = 2 := by decide
  have e3 : wrapInt (2 + 1) = 3 := by decide
  have c1 : decide ((1 : Int) ≤ NUM_TESTS) = true := by decide
  have c2 : decide ((2 : Int) ≤ NUM_TESTS) = true := by decide
  have c3 : decide ((3 : Int) ≤ NUM_TESTS) = true := by decide
  have b1 := pair_run env .sequential fuel (logged_header w) hf (fun h => by cases h)
  have b2 := pair_run env .alternating fuel (pair_outcome env .sequential (logged_header w)) hf
    (fun h => by cases h)
  have b3 := pair_faults env fuel
    (pair_outcome env .alternating (pair_outcome env .sequential (logged_header w))) hf hb
  simp only [Order.num, Nat.cast_ofNat, Nat.cast_one] at b1 b2
  rw [run_test_unfold, if_neg hv, if_pos h1]
  rw [hfu] at b1 b2 b3 ⊢
  simp only [forLoop, c1, c2, c3, e2, e3, b1, b2, b3, if_true]

/-- With any other `test_num`, the driver only logs, the third line being `invalid test!`. -/
theorem run_test_invalid (env : Env) (fuel : Nat) (w : World)
    (h : w.test_num < 0 ∨ w.test_num > NUM_TESTS) :
    run_test env fuel w = .ok ((logged_header w).emit (.pr_info .invalid_test)) := by
  have hv : ¬ ((logged_header w).test_num > 0 ∧ (logged_header w).test_num ≤ NUM_TESTS) := by
    show ¬ (w.test_num > 0 ∧ w.test_num ≤ NUM_TESTS)
    unfold NUM_TESTS at *; omega
  have h0 : ¬ (logged_header w).test_num = 0 := by
    show ¬ w.test_num = 0
    unfold NUM_TESTS at *; omega
  rw [run_test_unfold, if_neg hv, if_neg h0]

theorem pair_trace (env : Env) (o : Order) (w : World) :
    (pair_outcome env o w).trace = w.trace ++
      (events_since w (single_outcome env .percpu o w) ++
        events_since (single_outcome env .percpu o w) (pair_outcome env o w)) := by
  unfold pair_outcome single_outcome
  rw [events_since_outcome, events_since_outcome]
  simp [test_outcome]

theorem marks_append (s t : List Event) : marks (s ++ t) = marks s ++ marks t := by
  simp [marks, List.filterMap_append]

theorem marks_single (env : Env) (b : Backend) (o : Order) (w : World) :
    marks (events_since w (single_outcome env b o w)) = [Mark.start b o.num, Mark.took b o.num] := by
  unfold single_outcome
  rw [events_since_outcome, marks_test_events]

theorem marks_pair (env : Env) (o : Order) (w : World) :
    marks (events_since w (pair_outcome env o w)) =
      [Mark.start .percpu o.num, Mark.took .percpu o.num,
        Mark.start .kmalloc o.num, Mark.took .kmalloc o.num] := by
  rw [events_since_append _ _ _ (pair_trace env o w), marks_append, marks_single]
  unfold pair_outcome
  rw [marks_single]
  rfl

theorem invalid_not_mem_test_events (env : Env) (b : Backend) (k : Nat) (ac : AllocCall)
    (fc : FreeCall) (order : List Int) (w : World) :
    Event.pr_info Msg.invalid_test ∉ test_events env b k ac fc order w := by
  simp [test_events, allocEvents, freeEvents]

theorem invalid_not_mem_pair (env : Env) (o : Order) (w : World) :
    Event.pr_info Msg.invalid_test ∉ events_since w (pair_outcome env o w) := by
  rw [events_since_append _ _ _ (pair_trace env o w)]
  unfold pair_outcome single_outcome
  rw [events_since_outcome, events_since_outcome, List.mem_append]
  intro h
  rcases h with h | h <;> exact invalid_not_mem_test_events _ _ _ _ _ _ _ h

theorem header_trace (w : World) :
    (logged_header w).trace = w.trace ++
      [Event.pr_info (Msg.m_iterations w.m_iterations), Event.pr_info (Msg.test_num w.test_num)] := by
  simp [logged_header, World.emit]

theorem events_since_trans (w w1 w2 : World) (s t : List Event) (h1 : w1.trace = w.trace ++ s)
    (h2 : w2.trace = w1.trace ++ t) : events_since w w2 = s ++ events_since w1 w2 := by
  rw [events_since_append w1 w2 t h2]
  exact events_since_append _ _ _ (by rw [h2, h1, List.append_assoc])

theorem pair_trace_since (env : Env) (o : Order) (w : World) :
    (pair_outcome env o w).trace = w.trace ++ events_since w (pair_outcome env o w) := by
  rw [events_since_append _ _ _ (pair_trace env o w)]
  exact pair_trace env o w

theorem all_events (env : Env) (w : World) :
    events_since w (pair_outcome env .reverse (pair_outcome env .alternating
      (pair_outcome env .sequential (logged_header w)))) =
    [Event.pr_info (Msg.m_iterations w.m_iterations), Event.pr_info (Msg.test_num w.test_num)] ++
    (events_since (logged_header w) (pair_outcome env .sequential (logged_header w)) ++
    (events_since (pair_outcome env .sequential (logged_header w))
      (pair_outcome env .alternating (pair_outcome env .sequential (logged_header w))) ++
    events_since (pair_outcome env .alternating (pair_outcome env .sequential (logged_header w)))
      (pair_outcome env .reverse (pair_outcome env .alternating
        (pair_outcome env .sequential (logged_header w)))))) := by
  apply events_since_append
  rw [pair_trace_since env .reverse, pair_trace_since env .alternating,
    pair_trace_since env .sequential, header_trace]
  simp only [List.append_assoc]

theorem trace_since_of (w w1 : World) (t : List Event) (h : w1.trace = w.trace ++ t) :
    w1.trace = w.trace ++ events_since w w1 := by
  rw [events_since_append _ _ _ h]
  exact h

theorem prologue_trace (env : Env) (b : Backend) (k : Nat) (w : World) :
    (prologue_world env b k w).trace = w.trace ++
      [Event.vmalloc (vmalloc_size w.m_iterations), Event.pr_info (Msg.start b k),
        Event.getnstimeofday (env.now w.nclock)] :=
  rfl

theorem selector_cases (w : World) (h : ¬ (w.test_num < 0 ∨ w.test_num > NUM_TESTS))
    (h0 : w.test_num ≠ 0) : ∃ o : Order, w.test_num = (o.num : Int) := by
  unfold NUM_TESTS at h
  have h3 : w.test_num = 1 ∨ w.test_num = 2 ∨ w.test_num = 3 := by omega
  rcases h3 with h | h | h
  · exact ⟨.sequential, h⟩
  · exact ⟨.alternating, h⟩
  · exact ⟨.reverse, h⟩

/-- The driver returns, and only appends to the trace, unless it runs a test 3 whose loop
bound is `INT_MIN`. -/
theorem run_test_returns (env : Env) (fuel : Nat) (w : World) (hf : 2147483648 < fuel)
    (hb : w.test_num = 0 ∨ w.test_num = 3 →
      wrapInt (w.m_iterations * MILLION) ≠ -2147483648) :
    ∃ w1 : World, run_test env fuel w = .ok w1 ∧ w1.trace = w.trace ++ events_since w w1 := by
  by_cases h : w.test_num < 0 ∨ w.test_num > NUM_TESTS
  · refine ⟨_, run_test_invalid env fuel w h, ?_⟩
    apply trace_since_of
    simp only [logged_header, World.emit, List.append_assoc]
    rfl
  · by_cases h0 : w.test_num = 0
    · refine ⟨_, run_test_all env fuel w h0 hf (hb (Or.inl h0)), ?_⟩
      apply trace_since_of
      rw [pair_trace_since env .reverse, pair_trace_since env .alternating,
        pair_trace_since env .sequential, header_trace]
      simp only [List.append_assoc]
      rfl
    · obtain ⟨o, ho⟩ := selector_cases w h h0
      refine ⟨_, run_test_single env fuel w o ho hf (fun hr => hb (Or.inr ?_)), ?_⟩
      · rw [ho, hr]; rfl
      · apply trace_since_of
        rw [pair_trace_since env o, header_trace]
        simp only [List.append_assoc]
        rfl

/-- For a `test_num` in `0 .. 3` the driver ends, by returning or in the fault of a test 3,
in a world whose new events hold no `invalid test!` line. -/
theorem run_test_no_invalid (env : Env) (fuel : Nat) (w : World) (hf : 2147483648 < fuel)
    (h : ¬ (w.test_num < 0 ∨ w.test_num > NUM_TESTS)) :
    ∃ w1 : World, last_world (run_test env fuel w) = some w1 ∧
      Event.pr_info Msg.invalid_test ∉ events_since w w1 := by
  have hhdr : Event.pr_info Msg.invalid_test ∉
      [Event.pr_info (Msg.m_iterations w.m_iterations),
        Event.pr_info (Msg.test_num w.test_num)] := by simp
  have hpro : ∀ (b : Backend) (k : Nat) (w0 : World), Event.pr_info Msg.invalid_test ∉
      [Event.vmalloc (vmalloc_size w0.m_iterations), Event.pr_info (Msg.start b k),
        Event.getnstimeofday (env.now w0.nclock)] := by
    intro b k w0; simp
  by_cases hb : wrapInt (w.m_iterations * MILLION) = -2147483648
  · by_cases h0 : w.test_num = 0
    · refine ⟨_, by rw [run_test_all_faults env fuel w h0 hf hb]; rfl, ?_⟩
      rw [events_since_append _ _ _ (by
        rw [prologue_trace, pair_trace_since env .alternating, pair_trace_since env .sequential,
          header_trace]
        simp only [List.append_assoc]
        rfl)]
      simp only [List.mem_append, not_or]
      exact ⟨hhdr, invalid_not_mem_pair _ _ _, invalid_not_mem_pair _ _ _, hpro _ _ _⟩
    · obtain ⟨o, ho⟩ := selector_cases w h h0
      by_cases hr : o = .reverse
      · subst hr
        refine ⟨_, by rw [run_test_single_faults env fuel w ho hf hb]; rfl, ?_⟩
        rw [events_since_append _ _ _ (by
          rw [prologue_trace, header_trace]
          simp only [List.append_assoc]
          rfl)]
        simp only [List.mem_append, not_or]
        exact ⟨hhdr, hpro _ _ _⟩
      · refine ⟨_, by rw [run_test_single env fuel w o ho hf (fun e => absurd e hr)]; rfl, ?_⟩
        rw [events_since_trans _ _ _ _ _ (header_trace w) (pair_trace_since env o _)]
        simp only [List.mem_append, not_or]
        exact ⟨hhdr, invalid_not_mem_pair _ _ _⟩
  · by_cases h0 : w.test_num = 0
    · refine ⟨_, by rw [run_test_all env fuel w h0 hf hb]; rfl, ?_⟩
      rw [all_events]
      simp only [List.mem_append, not_or]
      exact ⟨hhdr, invalid_not_mem_pair _ _ _, invalid_not_mem_pair _ _ _,
        invalid_not_mem_pair _ _ _⟩
    · obtain ⟨o, ho⟩ := selector_cases w h h0
      refine ⟨_, by rw [run_test_single env fuel w o ho hf (fun _ => hb)]; rfl, ?_⟩
      rw [events_since_trans _ _ _ _ _ (header_trace w) (pair_trace_since env o _)]
      simp only [List.mem_append, not_or]
      exact ⟨hhdr, invalid_not_mem_pair _ _ _⟩

/-! ## Independence from the allocator's answers, and the two backends -/

theorem erase_ptr_test_events (env : Env) (b : Backend) (k : Nat) (ac : AllocCall)
    (fc : FreeCall) (order : List Int) (w : World) :
    (test_events env b k ac fc order w).map Event.erase_ptr =
      [Event.vmalloc (vmalloc_size w.m_iterations), Event.pr_info (Msg.start b k),
        Event.getnstimeofday (env.now w.nclock)] ++
      ((List.range (wrapInt (w.m_iterations * MILLION)).toNat).map
          (fun k : Nat => Event.alloc ac (k : Int) 0) ++
      (order.map (fun i => Event.free fc i none) ++
      [Event.getnstimeofday (env.now (w.nclock + 1)),
        Event.pr_info (Msg.took b k (elapsed_ms (env.now w.nclock) (env.now (w.nclock + 1)))),
        Event.vfree])) := by
  simp [test_events, allocEvents, freeEvents, Event.erase_ptr, Function.comp_def]

theorem mem_free_order (o : Order) (b : Int) (h1 : b ≤ 2147483647) (k : Nat)
    (hk : k < b.toNat) : (k : Int) ∈ free_order o b := by
  rw [free_order_eq o b (by omega) h1]
  exact List.mem_map.mpr ⟨k, (release_order_perm o b.toNat).mem_iff.mpr (List.mem_range.mpr hk),
    rfl⟩

theorem as_percpu_test_events (env : Env) (b : Backend) (k : Nat) (order : List Int)
    (w : World) :
    (test_events env b k (alloc_call b) (free_call b) order w).map Event.as_percpu =
      test_events env .percpu k (alloc_call .percpu) (free_call .percpu) order w := by
  simp [test_events, allocEvents, freeEvents, Event.as_percpu, Function.comp_def, alloc_call,
    free_call]

theorem slot_ops_as_percpu (t : List Event) : slot_ops (t.map Event.as_percpu) = slot_ops t := by
  unfold slot_ops
  rw [List.filterMap_map]
  apply List.filterMap_congr
  intro e _
  cases e with
  | pr_info msg => cases msg <;> rfl
  | _ => rfl

/-! ## The claims -/

/-- Claim C1.  In each of the six test functions, when `N = m_iterations * 1,000,000` is
representable as a non-negative `int`, the run consists of a prologue, the `N` allocations
into slots `0 .. N-1`, then `N` releases whose slots are a rearrangement of `0 .. N-1`, each
passing the pointer stored in its slot, then an epilogue ending in `vfree`; no slot holds an
unreleased block at the end. -/
theorem C1_every_block_freed_once (env : Env) (b : Backend) (o : Order) (fuel : Nat) (w : World)
    (hf : 2147483648 < fuel) (h0 : 0 ≤ w.m_iterations)
    (h1 : w.m_iterations * 1000000 ≤ INT_MAX) :
    ∃ (w1 : World) (pre post : List Event) (order : List Nat),
      test_fn b o env fuel w = .ok w1 ∧
      order.Perm (List.range (w.m_iterations * 1000000).toNat) ∧
      events_since w w1 =
        pre ++
        (List.range (w.m_iterations * 1000000).toNat).map
          (fun k : Nat => Event.alloc (alloc_call b) (k : Int) (env.allocRet (w.nalloc + k))) ++
        order.map
          (fun k : Nat => Event.free (free_call b) (k : Int) (some (env.allocRet (w.nalloc + k)))) ++
        post ++ [Event.vfree] ∧
      (∀ e ∈ pre ++ post, e.allocIdx = none ∧ e.freeIdx = none ∧ e ≠ Event.vfree) ∧
      outstanding (events_since w w1) = [] := by
  simp only [INT_MAX] at h1
  have hB : wrapInt (w.m_iterations * MILLION) = w.m_iterations * 1000000 := by
    unfold wrapInt MILLION; omega
  have hperm := release_order_perm o (w.m_iterations * 1000000).toNat
  have hlt : ∀ k ∈ release_order o (w.m_iterations * 1000000).toNat,
      k < (w.m_iterations * 1000000).toNat := fun k hk => List.mem_range.mp (hperm.mem_iff.mp hk)
  have hev : events_since w (test_outcome env b o.num (alloc_call b) (free_call b)
      (free_order o (wrapInt (w.m_iterations * MILLION))) w) =
      [Event.vmalloc (vmalloc_size w.m_iterations), Event.pr_info (Msg.start b o.num),
        Event.getnstimeofday (env.now w.nclock)] ++
      (List.range (w.m_iterations * 1000000).toNat).map
        (fun k : Nat => Event.alloc (alloc_call b) (k : Int) (env.allocRet (w.nalloc + k))) ++
      (release_order o (w.m_iterations * 1000000).toNat).map
        (fun k : Nat => Event.free (free_call b) (k : Int) (some (env.allocRet (w.nalloc + k)))) ++
      [Event.getnstimeofday (env.now (w.nclock + 1)),
        Event.pr_info (Msg.took b o.num (elapsed_ms (env.now w.nclock) (env.now (w.nclock + 1))))]
      ++ [Event.vfree] := by
    rw [events_since_outcome, test_events, hB, free_order_eq o _ (by omega) (by omega),
      freeEvents_filled env _ _ _ _ hlt]
    simp [allocEvents]
  refine ⟨_, _, _, release_order o (w.m_iterations * 1000000).toNat,
    test_fn_run env b o fuel w hf (fun _ => by rw [hB]; omega), hperm, hev, ?_, ?_⟩
  · intro e he
    simp only [List.mem_append, List.mem_cons, List.mem_singleton, List.not_mem_nil,
      or_false] at he
    rcases he with (rfl | rfl | rfl) | (rfl | rfl) <;> simp [Event.allocIdx, Event.freeIdx]
  · rw [hev, List.append_assoc _ _ [Event.vfree]]
    refine outstanding_balanced _ _ _ _ _ _ ?_ ?_ ?_ ?_ hperm
    · intro e he
      simp only [List.mem_cons, List.mem_singleton, List.not_mem_nil, or_false] at he
      rcases he with rfl | rfl | rfl <;> simp [Event.allocIdx, Event.freeIdx]
    · intro e he
      simp only [List.append_eq, List.mem_append, List.mem_cons, List.mem_singleton,
        List.not_mem_nil, or_false] at he
      rcases he with (rfl | rfl) | rfl <;> simp [Event.allocIdx, Event.freeIdx]
    · intro k; rfl
    · intro k; rfl

/-- Witness for claim C1, at `m_iterations = 2` with `kmalloc_test3`. -/
theorem C1_every_block_freed_once_witness :
    (fresh_world 2 3).m_iterations * 1000000 ≤ INT_MAX ∧
    ∃ w1 : World,
      test_fn .kmalloc .reverse sample_env 2147483649 (fresh_world 2 3) = .ok w1 ∧
      outstanding (events_since (fresh_world 2 3) w1) = [] := by
  obtain ⟨w1, _, _, _, h1, _, _, _, h5⟩ :=
    C1_every_block_freed_once sample_env .kmalloc .reverse 2147483649 (fresh_world 2 3)
      (by decide) (by decide) (by decide)
  exact ⟨by decide, w1, h1, h5⟩

/-- Claim C3, refuted as stated.  With `test_num = 0` and `m_iterations = 33554432` the loop
bound is `INT_MIN`: tests 1 and 2 of both backends run with no allocation, then
`percpu_test3` faults reading `arr[2147483647]`.  Four `took` lines have been logged, not
six. -/
theorem C3_counterexample :
    (fresh_world 33554432 0).test_num = 0 ∧
    faulting_slot (run_test sample_env 2147483649 (fresh_world 33554432 0)) = some INT_MAX ∧
    (last_world (run_test sample_env 2147483649 (fresh_world 33554432 0))).map
      (fun w1 => marks w1.trace) =
      some [Mark.start .percpu 1, Mark.took .percpu 1, Mark.start .kmalloc 1,
        Mark.took .kmalloc 1, Mark.start .percpu 2, Mark.took .percpu 2, Mark.start .kmalloc 2,
        Mark.took .kmalloc 2, Mark.start .percpu 3] := by
  decide

/-- Claim C3, amended.  With `test_num = 0`, and the loop bound `m_iterations * MILLION`,
computed in `int`, other than `INT_MIN`, the driver runs all tests: the `start` and `took`
lines of its trace are exactly twelve, a `start` line followed by the `took` line of the same
test, for percpu 1, kmalloc 1, percpu 2, kmalloc 2, percpu 3, kmalloc 3 in this order. -/
theorem C3_all_tests_timing (env : Env) (fuel : Nat) (w : World)
    (hf : 2147483648 < fuel) (h : w.test_num = 0)
    (hb : wrapInt (w.m_iterations * MILLION) ≠ INT_MIN) :
    ∃ w1 : World, run_test env fuel w = .ok w1 ∧
      marks (events_since w w1) =
        [Mark.start .percpu 1, Mark.took .percpu 1, Mark.start .kmalloc 1, Mark.took .kmalloc 1,
          Mark.start .percpu 2, Mark.took .percpu 2, Mark.start .kmalloc 2, Mark.took .kmalloc 2,
          Mark.start .percpu 3, Mark.took .percpu 3, Mark.start .kmalloc 3, Mark.took .kmalloc 3] := by
  refine ⟨_, run_test_all env fuel w h hf hb, ?_⟩
  rw [all_events env w, marks_append, marks_append, marks_append, marks_pair, marks_pair,
    marks_pair]
  rfl

/-- Witness for claim C3, at `m_iterations = 1`. -/
theorem C3_all_tests_timing_witness :
    ∃ w1 : World, run_test sample_env 2147483649 (fresh_world 1 0) = .ok w1 ∧
      marks (events_since (fresh_world 1 0) w1) =
        [Mark.start .percpu 1, Mark.took .percpu 1, Mark.start .kmalloc 1, Mark.took .kmalloc 1,
          Mark.start .percpu 2, Mark.took .percpu 2, Mark.start .kmalloc 2, Mark.took .kmalloc 2,
          Mark.start .percpu 3, Mark.took .percpu 3, Mark.start .kmalloc 3, Mark.took .kmalloc 3] :=
  C3_all_tests_timing sample_env 2147483649 (fresh_world 1 0) (by decide) (by decide) (by decide)

/-- Claim C4.  For a `test_num` that is negative or above `NUM_TESTS`, whatever the fuel,
the driver returns having logged its two header lines and `invalid test!` and nothing else:
no allocation, no release, no clock reading, no timing line.  For every other `test_num`
the driver logs no `invalid test!` line, whether it returns or ends in the fault of a test 3
whose loop bound is `INT_MIN`; and it returns unless it runs such a test 3. -/
theorem C4_invalid_selector (env : Env) (fuel : Nat) (w : World) :
    ((w.test_num < 0 ∨ w.test_num > NUM_TESTS) →
      ∃ w1 : World, run_test env fuel w = .ok w1 ∧
        events_since w w1 =
          [Event.pr_info (Msg.m_iterations w.m_iterations),
            Event.pr_info (Msg.test_num w.test_num), Event.pr_info Msg.invalid_test] ∧
        w1.nalloc = w.nalloc ∧ w1.nclock = w.nclock) ∧
    (¬ (w.test_num < 0 ∨ w.test_num > NUM_TESTS) → 2147483648 < fuel →
      ∃ w1 : World, last_world (run_test env fuel w) = some w1 ∧
        Event.pr_info Msg.invalid_test ∉ events_since w w1 ∧
        ((w.test_num = 0 ∨ w.test_num = 3 → wrapInt (w.m_iterations * MILLION) ≠ INT_MIN) →
          run_test env fuel w = .ok w1)) := by
  constructor
  · intro h
    refine ⟨_, run_test_invalid env fuel w h, ?_, rfl, rfl⟩
    apply events_since_append
    simp [logged_header, World.emit]
  · intro h hf
    obtain ⟨w1, hl, hn⟩ := run_test_no_invalid env fuel w hf h
    refine ⟨w1, hl, hn, ?_⟩
    intro hb
    obtain ⟨w2, hrun, _⟩ := run_test_returns env fuel w hf hb
    rw [hrun] at hl ⊢
    have : w2 = w1 := Option.some.inj hl
    rw [this]

/-- Witness for claim C4, at `test_num = 4` without fuel and at `test_num = 3`. -/
theorem C4_invalid_selector_witness :
    (∃ w1 : World, run_test sample_env 0 (fresh_world 1 4) = .ok w1 ∧
      events_since (fresh_world 1 4) w1 =
        [Event.pr_info (Msg.m_iterations 1), Event.pr_info (Msg.test_num 4),
          Event.pr_info Msg.invalid_test]) ∧
    (∃ w1 : World, run_test sample_env 2147483649 (fresh_world 1 3) = .ok w1 ∧
      Event.pr_info Msg.invalid_test ∉ events_since (fresh_world 1 3) w1) := by
  constructor
  · obtain ⟨w1, h1, h2, _⟩ :=
      (C4_invalid_selector sample_env 0 (fresh_world 1 4)).1 (by decide)
    exact ⟨w1, h1, h2⟩
  · obtain ⟨w1, _, h2, h3⟩ :=
      (C4_invalid_selector sample_env 2147483649 (fresh_world 1 3)).2 (by decide) (by decide)
    exact ⟨w1, h3 (by decide), h2⟩

/-- Claim C6, refuted as stated.  With `m_iterations = 2148` the product
`N = 2,148,000,000` is not negative, yet `percpu_test1` releases no slot at all, because
the loop bound computed in `int` is negative; the claim has it release `0 .. N-1`. -/
theorem C6_counterexample :
    (0 : Int) ≤ 2148 * 1000000 ∧
    (percpu_test1 sample_env 2147483649 (fresh_world 2148 1)).toOption.map
        (fun w1 => free_indices w1.trace) = some [] ∧
    (List.range (2148 * 1000000 : Int).toNat).map (fun k : Nat => (k : Int)) ≠ [] := by
  refine ⟨by decide, by decide, ?_⟩
  intro h
  have h2 := congrArg List.length h
  rw [List.length_map, List.length_range] at h2
  exact absurd h2 (by decide)

/-- Claim C6, amended.  Whenever the loop bound `N = m_iterations * MILLION`, computed in
`int`, is not negative (which holds with `N = m_iterations * 1,000,000` for
`0 <= m_iterations <= 2147`), test 1 of either backend releases slots `0, 1, ..., N-1` in
ascending order, test 2 releases the even slots in ascending order and then the odd slots
in ascending order, and test 3 releases the slots in the reverse of test 1's order. -/
theorem C6_release_orders (env : Env) (b : Backend) (fuel : Nat) (w : World)
    (hf : 2147483648 < fuel) (h0 : 0 ≤ wrapInt (w.m_iterations * MILLION)) :
    ∃ w1 w2 w3 : World,
      test_fn b .sequential env fuel w = .ok w1 ∧
      test_fn b .alternating env fuel w = .ok w2 ∧
      test_fn b .reverse env fuel w = .ok w3 ∧
      free_indices (events_since w w1) =
        (List.range (wrapInt (w.m_iterations * MILLION)).toNat).map (fun k : Nat => (k : Int)) ∧
      free_indices (events_since w w2) =
        ((List.range (wrapInt (w.m_iterations * MILLION)).toNat).filter
            (fun k => k % 2 = 0)).map (fun k : Nat => (k : Int)) ++
        ((List.range (wrapInt (w.m_iterations * MILLION)).toNat).filter
            (fun k => k % 2 = 1)).map (fun k : Nat => (k : Int)) ∧
      free_indices (events_since w w3) = (free_indices (events_since w w1)).reverse ∧
      (0 ≤ w.m_iterations → w.m_iterations ≤ 2147 →
        wrapInt (w.m_iterations * MILLION) = w.m_iterations * 1000000) := by
  have hr := wrapInt_range (w.m_iterations * MILLION)
  have hb : ∀ o : Order, o = .reverse → wrapInt (w.m_iterations * MILLION) ≠ -2147483648 :=
    fun _ _ => by omega
  refine ⟨_, _, _, test_fn_run env b .sequential fuel w hf (hb _),
    test_fn_run env b .alternating fuel w hf (hb _), test_fn_run env b .reverse fuel w hf (hb _),
    ?_, ?_, ?_, ?_⟩
  · rw [events_since_outcome, free_indices_test_events, free_order_eq _ _ h0 hr.2]
    rfl
  · rw [events_since_outcome, free_indices_test_events, free_order_eq _ _ h0 hr.2]
    simp [release_order]
  · rw [events_since_outcome, free_indices_test_events, free_order_eq _ _ h0 hr.2,
      events_since_outcome, free_indices_test_events, free_order_eq _ _ h0 hr.2]
    simp [release_order]
  · intro h1 h2
    exact bound_exact _ (by omega) h2

/-- Witness for claim C6, at `m_iterations = 1` with the kmalloc backend. -/
theorem C6_release_orders_witness :
    wrapInt ((fresh_world 1 1).m_iterations * MILLION) = 1000000 ∧
    ∃ w1 w3 : World,
      test_fn .kmalloc .sequential sample_env 2147483649 (fresh_world 1 1) = .ok w1 ∧
      test_fn .kmalloc .reverse sample_env 2147483649 (fresh_world 1 1) = .ok w3 ∧
      free_indices (events_since (fresh_world 1 1) w3) =
        (free_indices (events_since (fresh_world 1 1) w1)).reverse := by
  obtain ⟨w1, _, w3, h1, _, h3, _, _, hrev, _⟩ :=
    C6_release_orders sample_env .kmalloc 2147483649 (fresh_world 1 1) (by decide) (by decide)
  exact ⟨by decide, w1, w3, h1, h3, hrev⟩

/-- Claim C8, refuted as stated.  The timestamps `0 s` and `10,000,000,000 s` have
nanosecond fields in range and are in order, but the `long` difference of their nanosecond
counts wraps: the printed value is `-8446744073709`, negative, where the floor of the
elapsed nanoseconds over one million is `10,000,000,000,000`. -/
theorem C8_counterexample :
    elapsed_ms ⟨0, 0⟩ ⟨10000000000, 0⟩ = -8446744073709 ∧
    ((10000000000 * 1000000000 + 0) - (0 * 1000000000 + 0) : Int) / 1000000 = 10000000000000 ∧
    ¬ (0 ≤ elapsed_ms ⟨0, 0⟩ ⟨10000000000, 0⟩) := by
  decide

/-- Claim C8, amended.  For timestamps with the end not earlier than the start and fewer
than `2^63` nanoseconds elapsed, the value printed by the timing line is the floor of the
elapsed nanoseconds divided by `1,000,000`, and it is not negative.  The bounds
`0 <= tv_nsec < 1,000,000,000` of the claim are not needed once the order of the two
timestamps is stated on their nanosecond counts. -/
theorem C8_elapsed_ms_floor (start fin : Timespec)
    (hord : start.tv_sec * 1000000000 + start.tv_nsec ≤ fin.tv_sec * 1000000000 + fin.tv_nsec)
    (hfit : (fin.tv_sec * 1000000000 + fin.tv_nsec) -
      (start.tv_sec * 1000000000 + start.tv_nsec) < 9223372036854775808) :
    elapsed_ms start fin =
      ((fin.tv_sec * 1000000000 + fin.tv_nsec) -
        (start.tv_sec * 1000000000 + start.tv_nsec)) / 1000000 ∧
    elapsed_ms start fin * 1000000 ≤
      (fin.tv_sec * 1000000000 + fin.tv_nsec) - (start.tv_sec * 1000000000 + start.tv_nsec) ∧
    (fin.tv_sec * 1000000000 + fin.tv_nsec) - (start.tv_sec * 1000000000 + start.tv_nsec) <
      (elapsed_ms start fin + 1) * 1000000 ∧
    0 ≤ elapsed_ms start fin := by
  have hin : wrapLong (wrapLong (wrapLong (fin.tv_sec * BILLION) + fin.tv_nsec) -
      wrapLong (wrapLong (start.tv_sec * BILLION) + start.tv_nsec)) =
      (fin.tv_sec * 1000000000 + fin.tv_nsec) -
        (start.tv_sec * 1000000000 + start.tv_nsec) := by
    unfold wrapLong BILLION; omega
  have hdiv : Int.tdiv ((fin.tv_sec * 1000000000 + fin.tv_nsec) -
      (start.tv_sec * 1000000000 + start.tv_nsec)) MILLION =
      ((fin.tv_sec * 1000000000 + fin.tv_nsec) -
        (start.tv_sec * 1000000000 + start.tv_nsec)) / 1000000 :=
    Int.tdiv_eq_ediv (by omega) (by decide)
  have hval : elapsed_ms start fin =
      ((fin.tv_sec * 1000000000 + fin.tv_nsec) -
        (start.tv_sec * 1000000000 + start.tv_nsec)) / 1000000 := by
    unfold elapsed_ms
    rw [hin, hdiv]
    unfold wrapLong; omega
  rw [hval]
  refine ⟨rfl, ?_, ?_, ?_⟩ <;> omega

/-- Witness for claim C8: 1.000000002 seconds print as `1000`. -/
theorem C8_elapsed_ms_floor_witness :
    elapsed_ms ⟨5, 999999999⟩ ⟨7, 1⟩ =
      ((7 * 1000000000 + 1) - (5 * 1000000000 + 999999999)) / 1000000 ∧
    0 ≤ elapsed_ms ⟨5, 999999999⟩ ⟨7, 1⟩ :=
  have h := C8_elapsed_ms_floor ⟨5, 999999999⟩ ⟨7, 1⟩ (by decide) (by decide)
  ⟨h.1, h.2.2.2⟩

/-- Claim C9.  Each test function performs the same operations whatever the block allocator
returns: with the answers of the allocator replaced by any others, the run ends the same way
(it returns, or, for a test 3 whose loop bound is `INT_MIN`, faults on the same read) and its
events, pointer values blanked, are the same.  Every pointer the allocator returns, `NULL`
included, is stored in its slot, and the release of a slot passes on that value. -/
theorem C9_allocation_failure_unchecked (env : Env) (ret2 : Nat → Ptr) (b : Backend)
    (o : Order) (fuel : Nat) (w : World) (hf : 2147483648 < fuel) :
    ∃ w1 w2 : World,
      last_world (test_fn b o env fuel w) = some w1 ∧
      last_world (test_fn b o { env with allocRet := ret2 } fuel w) = some w2 ∧
      faulting_slot (test_fn b o env fuel w) =
        faulting_slot (test_fn b o { env with allocRet := ret2 } fuel w) ∧
      (events_since w w1).map Event.erase_ptr = (events_since w w2).map Event.erase_ptr ∧
      (∀ c i r, Event.alloc c i r ∈ events_since w w1 →
        0 ≤ i ∧ i < wrapInt (w.m_iterations * MILLION) ∧
        r = env.allocRet (w.nalloc + i.toNat)) ∧
      (∀ c i p, Event.free c i p ∈ events_since w w1 →
        0 ≤ i ∧ i < wrapInt (w.m_iterations * MILLION) ∧
        p = some (env.allocRet (w.nalloc + i.toNat))) ∧
      (∀ k : Nat, k < (wrapInt (w.m_iterations * MILLION)).toNat →
        Event.alloc (alloc_call b) (k : Int) (env.allocRet (w.nalloc + k)) ∈ events_since w w1 ∧
        Event.free (free_call b) (k : Int) (some (env.allocRet (w.nalloc + k))) ∈
          events_since w w1) ∧
      ((o = .reverse → wrapInt (w.m_iterations * MILLION) ≠ INT_MIN) →
        test_fn b o env fuel w = .ok w1 ∧
        test_fn b o { env with allocRet := ret2 } fuel w = .ok w2) := by
  have hr := wrapInt_range (w.m_iterations * MILLION)
  by_cases hedge : o = .reverse ∧ wrapInt (w.m_iterations * MILLION) = -2147483648
  · obtain ⟨rfl, hb⟩ := hedge
    have hev : events_since w (prologue_world env b 3 w) =
        [Event.vmalloc (vmalloc_size w.m_iterations), Event.pr_info (Msg.start b 3),
          Event.getnstimeofday (env.now w.nclock)] :=
      events_since_append _ _ _ (prologue_trace env b 3 w)
    refine ⟨prologue_world env b 3 w, prologue_world env b 3 w,
      by rw [test_fn_faults env b fuel w hf hb]; rfl,
      by rw [test_fn_faults _ b fuel w hf hb]; rfl,
      by rw [test_fn_faults env b fuel w hf hb, test_fn_faults _ b fuel w hf hb]; rfl,
      rfl, ?_, ?_, ?_, ?_⟩
    · intro c i r h
      rw [hev] at h
      simp at h
    · intro c i p h
      rw [hev] at h
      simp at h
    · intro k hk
      omega
    · intro h; exact absurd hb (h rfl)
  · have hb : o = .reverse → wrapInt (w.m_iterations * MILLION) ≠ -2147483648 :=
      fun hr hb => hedge ⟨hr, hb⟩
    have hfree : ∀ i ∈ free_order o (wrapInt (w.m_iterations * MILLION)),
        0 ≤ i ∧ i < wrapInt (w.m_iterations * MILLION) := by
      intro i hi
      by_cases h0 : 0 ≤ wrapInt (w.m_iterations * MILLION)
      · rw [free_order_eq o _ h0 hr.2] at hi
        obtain ⟨k, hk, rfl⟩ := List.mem_map.mp hi
        have := List.mem_range.mp ((release_order_perm o _).mem_iff.mp hk)
        omega
      · exfalso
        have hz : (wrapInt (w.m_iterations * MILLION)).toNat = 0 := by omega
        have hz1 : ((wrapInt (w.m_iterations * MILLION) + 1) / 2).toNat = 0 := by omega
        have hz2 : (wrapInt (w.m_iterations * MILLION) / 2).toNat = 0 := by omega
        cases o
        · simp [free_order, ascending, hz] at hi
        · simp [free_order, evens, odds, hz1, hz2] at hi
        · have hid : wrapInt (wrapInt (w.m_iterations * MILLION) - 1) =
              wrapInt (w.m_iterations * MILLION) - 1 :=
            wrapInt_id _ (by have := hb rfl; omega) (by omega)
          have hz3 : (wrapInt (w.m_iterations * MILLION) - 1 + 1).toNat = 0 := by omega
          simp only [free_order, descending, hid, hz3, List.range_zero, List.map_nil,
            List.not_mem_nil] at hi
    refine ⟨_, _, by rw [test_fn_run env b o fuel w hf hb]; rfl,
      by rw [test_fn_run _ b o fuel w hf hb]; rfl,
      by rw [test_fn_run env b o fuel w hf hb, test_fn_run _ b o fuel w hf hb]; rfl,
      ?_, ?_, ?_, ?_, fun _ => ⟨test_fn_run env b o fuel w hf hb, test_fn_run _ b o fuel w hf hb⟩⟩
    · rw [events_since_outcome, events_since_outcome, erase_ptr_test_events,
        erase_ptr_test_events]
    · intro c i r h
      rw [events_since_outcome] at h
      simp only [test_events, allocEvents, freeEvents, List.mem_append, List.mem_cons,
        List.mem_map, List.mem_range, List.not_mem_nil, or_false, reduceCtorEq, false_or,
        Event.alloc.injEq, exists_false] at h
      rcases h with ⟨k, hk, _, rfl, rfl⟩ | ⟨_, _, hfalse⟩
      · refine ⟨by omega, by omega, ?_⟩
        simp
      · exact hfalse.elim
    · intro c i p h
      rw [events_since_outcome] at h
      simp only [test_events, allocEvents, freeEvents, List.mem_append, List.mem_cons,
        List.mem_map, List.mem_range, List.not_mem_nil, or_false, reduceCtorEq, false_or,
        Event.free.injEq, exists_false, and_false] at h
      obtain ⟨j, hj, _, rfl, rfl⟩ := h
      have hj2 := hfree j hj
      refine ⟨hj2.1, hj2.2, ?_⟩
      simp only [filled]
      rw [if_pos (by omega)]
    · intro k hk
      rw [events_since_outcome]
      constructor
      · simp only [test_events, allocEvents, List.mem_append, List.mem_map, List.mem_range]
        exact Or.inr (Or.inl ⟨k, hk, rfl⟩)
      · simp only [test_events, freeEvents, List.mem_append, List.mem_map]
        refine Or.inr (Or.inr (Or.inl ⟨(k : Int), mem_free_order o _ hr.2 k hk, ?_⟩))
        simp only [filled]
        rw [if_pos (by omega)]
        simp

/-- Witness for claim C9: `kmalloc_test2` with `m_iterations = 1`, against an allocator that
always returns `NULL`. -/
theorem C9_allocation_failure_unchecked_witness :
    ∃ w1 w2 : World,
      test_fn .kmalloc .alternating sample_env 2147483649 (fresh_world 1 2) = .ok w1 ∧
      test_fn .kmalloc .alternating { sample_env with allocRet := fun _ => 0 } 2147483649
        (fresh_world 1 2) = .ok w2 ∧
      (events_since (fresh_world 1 2) w1).map Event.erase_ptr =
        (events_since (fresh_world 1 2) w2).map Event.erase_ptr := by
  obtain ⟨w1, w2, _, _, _, h3, _, _, _, h7⟩ :=
    C9_allocation_failure_unchecked sample_env (fun _ => 0) .kmalloc .alternating 2147483649
      (fresh_world 1 2) (by decide)
  exact ⟨w1, w2, (h7 (fun h => by cases h)).1, (h7 (fun h => by cases h)).2, h3⟩

/-- Claim C10.  For each of the three orders and every `m_iterations`, the percpu test and
the kmalloc test end the same way (both return, or, for test 3 with loop bound `INT_MIN`,
both fault on the same read), and the events of the percpu test are those of the kmalloc
test with the allocation call, the release call and the backend name of the log lines
renamed; in particular both perform the same stores and releases on the same slots in the
same order. -/
theorem C10_backends_driven_identically (env : Env) (o : Order) (fuel : Nat) (w : World)
    (hf : 2147483648 < fuel) :
    ∃ w1 w2 : World,
      last_world (test_fn .percpu o env fuel w) = some w1 ∧
      last_world (test_fn .kmalloc o env fuel w) = some w2 ∧
      faulting_slot (test_fn .percpu o env fuel w) =
        faulting_slot (test_fn .kmalloc o env fuel w) ∧
      slot_ops (events_since w w1) = slot_ops (events_since w w2) ∧
      events_since w w1 = (events_since w w2).map Event.as_percpu ∧
      ((o = .reverse → wrapInt (w.m_iterations * MILLION) ≠ INT_MIN) →
        test_fn .percpu o env fuel w = .ok w1 ∧ test_fn .kmalloc o env fuel w = .ok w2) := by
  by_cases hedge : o = .reverse ∧ wrapInt (w.m_iterations * MILLION) = -2147483648
  · obtain ⟨rfl, hb⟩ := hedge
    have hev : ∀ b : Backend, events_since w (prologue_world env b 3 w) =
        [Event.vmalloc (vmalloc_size w.m_iterations), Event.pr_info (Msg.start b 3),
          Event.getnstimeofday (env.now w.nclock)] :=
      fun b => events_since_append _ _ _ (prologue_trace env b 3 w)
    refine ⟨prologue_world env .percpu 3 w, prologue_world env .kmalloc 3 w,
      by rw [test_fn_faults env .percpu fuel w hf hb]; rfl,
      by rw [test_fn_faults env .kmalloc fuel w hf hb]; rfl,
      by rw [test_fn_faults env .percpu fuel w hf hb, test_fn_faults env .kmalloc fuel w hf hb]
         rfl,
      ?_, ?_, ?_⟩
    · rw [hev, hev]; rfl
    · rw [hev, hev]; rfl
    · intro h; exact absurd hb (h rfl)
  · have hb : o = .reverse → wrapInt (w.m_iterations * MILLION) ≠ -2147483648 :=
      fun hr hb => hedge ⟨hr, hb⟩
    have h : events_since w (test_outcome env .percpu o.num (alloc_call .percpu)
        (free_call .percpu) (free_order o (wrapInt (w.m_iterations * MILLION))) w) =
        (events_since w (test_outcome env .kmalloc o.num (alloc_call .kmalloc)
          (free_call .kmalloc) (free_order o (wrapInt (w.m_iterations * MILLION))) w)).map
          Event.as_percpu := by
      rw [events_since_outcome, events_since_outcome, as_percpu_test_events]
    refine ⟨_, _, by rw [test_fn_run env .percpu o fuel w hf hb]; rfl,
      by rw [test_fn_run env .kmalloc o fuel w hf hb]; rfl,
      by rw [test_fn_run env .percpu o fuel w hf hb, test_fn_run env .kmalloc o fuel w hf hb]
         rfl,
      ?_, h, fun _ => ⟨test_fn_run env .percpu o fuel w hf hb,
        test_fn_run env .kmalloc o fuel w hf hb⟩⟩
    rw [h, slot_ops_as_percpu]

/-- Witness for claim C10, at `m_iterations = 1` and test 3. -/
theorem C10_backends_driven_identically_witness :
    ∃ w1 w2 : World,
      test_fn .percpu .reverse sample_env 2147483649 (fresh_world 1 3) = .ok w1 ∧
      test_fn .kmalloc .reverse sample_env 2147483649 (fresh_world 1 3) = .ok w2 ∧
      slot_ops (events_since (fresh_world 1 3) w1) = slot_ops (events_since (fresh_world 1 3) w2) := by
  obtain ⟨w1, w2, _, _, _, h3, _, h5⟩ :=
    C10_backends_driven_identically sample_env .reverse 2147483649 (fresh_world 1 3) (by decide)
  exact ⟨w1, w2, (h5 (fun _ => by decide)).1, (h5 (fun _ => by decide)).2, h3⟩

end PercpuTest
